import Mathlib

/-!
# FlowNote backend — Flow Notation Codec, Mutation Toolkit and Reconciler

Shallow embedding of `src/backend/agents/flow_agent.py`. Strings are
modelled as `List Char`; each Python regular expression is embedded as an
explicit matching function reproducing Python's leftmost / lazy / greedy
backtracking semantics on the relevant patterns. Python's `json.loads` is
modelled by `jsonLoads`, restricted to integer numerals and to string
escapes without `\uXXXX` (floating point literals and unicode escapes are
outside this embedding); Python whitespace classes are modelled on their
ASCII and common-unicode members.
-/

set_option maxHeartbeats 1000000
set_option maxRecDepth 10000

abbrev Str := List Char

/-- Shorthand: the character list of a string literal. -/
def lit (s : String) : Str := s.data

/-- The backtick character, written by code so that no backtick appears
outside string literals. -/
def tick : Char := Char.ofNat 96

/-- Characters on which Python `str.splitlines` breaks a line. -/
def isLineBreak (c : Char) : Bool :=
  c = '\n' || c = '\r' || c = '\x0b' || c = '\x0c' || c = '\x1c' ||
  c = '\x1d' || c = '\x1e' || c = '\x85' || c = '\u2028' || c = '\u2029'

/-- Python whitespace (`str.strip`, regex `\s`), restricted to its ASCII
and common-unicode members. -/
def pyIsSpace (c : Char) : Bool :=
  c = ' ' || c = '\t' || isLineBreak c || c = '\x1f' || c = '\xa0'

/-- Python `str.strip()`. -/
def pyStrip (s : Str) : Str :=
  ((s.dropWhile pyIsSpace).reverse.dropWhile pyIsSpace).reverse

/-- Python `str.rstrip()`. -/
def pyRstrip (s : Str) : Str :=
  (s.reverse.dropWhile pyIsSpace).reverse

/-- Worker for `pySplitlines`: accumulates the current line in reverse;
the flag records that the previous character was `\r`, so that a
following `\n` is part of the same `\r\n` break. -/
def pySplitlinesGo : Bool → Str → Str → List Str
  | _, accRev, [] => if accRev.isEmpty then [] else [accRev.reverse]
  | skipLF, accRev, c :: rest =>
    if skipLF ∧ c = '\n' then pySplitlinesGo false accRev rest
    else if c = '\r' then accRev.reverse :: pySplitlinesGo true [] rest
    else if isLineBreak c then accRev.reverse :: pySplitlinesGo false [] rest
    else pySplitlinesGo false (c :: accRev) rest

/-- Python `str.splitlines()`. -/
def pySplitlines (s : Str) : List Str := pySplitlinesGo false [] s

/-- Python `"sep".join(parts)`. -/
def joinSep (sep : Str) : List Str → Str
  | [] => []
  | [x] => x
  | x :: xs => x ++ sep ++ joinSep sep xs

/-- Decimal digits of a natural number, as Python `str(n)`. -/
def natToStr (n : Nat) : Str := Nat.toDigits 10 n

-- ─────────────────────────────────────────────────────────────
-- Data model
-- ─────────────────────────────────────────────────────────────

/-- A node dict `{"id": ..., "label": ..., "type": ...}` as created by
`_parse_flow` and by the `FlowEditorPlugin` tool methods. -/
structure Node where
  id : Str
  label : Str
  type : Str
deriving DecidableEq

/-- An edge dict `{"id": ..., "source": ..., "target": ...}` with the
`"label"` key present iff `label = some _` (the Python code only sets the
key when a label exists). -/
structure Edge where
  id : Str
  source : Str
  target : Str
  label : Option Str
deriving DecidableEq

def defaultType : Str := lit "default"

-- ─────────────────────────────────────────────────────────────
-- Regex-equivalent matchers
-- ─────────────────────────────────────────────────────────────

/-- One candidate split for a lazy group: succeeds when `close` is a
prefix of the remainder and the continuation accepts what follows. -/
def tryClose (close : Str) (cont : Str → Option α) (rem : Str) : Option α :=
  if close.isPrefixOf rem then cont (rem.drop close.length) else none

/-- Scanner for a lazy group `(.+?)close...`: `accRev` holds the group
consumed so far (reversed, nonempty); candidate split points are tried at
ascending positions, exactly as a lazy regex group extends. -/
def lazyGroupGo (close : Str) (cont : Str → Option α) : Str → Str → Option (Str × α)
  | accRev, [] =>
    match tryClose close cont [] with
    | some a => some (accRev.reverse, a)
    | none => none
  | accRev, c :: rest =>
    match tryClose close cont (c :: rest) with
    | some a => some (accRev.reverse, a)
    | none => lazyGroupGo close cont (c :: accRev) rest

/-- Match `(.+?)close...` at the start of the input: the group takes the
fewest characters (at least one) such that `close` follows and `cont`
accepts the rest. -/
def lazyGroup (close : Str) (cont : Str → Option α) : Str → Option (Str × α)
  | [] => none
  | c :: rest => lazyGroupGo close cont [c] rest

/-- Continuation `\s+(.+)$` of the node patterns: at least one whitespace
character, then the (greedy, nonempty) label. -/
def labelCont (rest : Str) : Option Str :=
  match rest with
  | [] => none
  | c :: cs =>
    if pyIsSpace c then
      let r := (c :: cs).dropWhile pyIsSpace
      if r.isEmpty then
        if cs.isEmpty then none
        else some [(c :: cs).getLast (List.cons_ne_nil c cs)]
      else some r
    else none

/-- One node pattern `^open(.+?)close\s+(.+)$` (cf. `_NODE_PATTERNS`). -/
def matchNodeWith (opn cls : Str) (line : Str) : Option (Str × Str) :=
  if opn.isPrefixOf line then lazyGroup cls labelCont (line.drop opn.length)
  else none

/-- `_NODE_PATTERNS` tried in source order; result `(id, label, type)`. -/
def matchNode (line : Str) : Option (Str × Str × Str) :=
  match matchNodeWith (lit "[[") (lit "]]") line with
  | some p => some (p.1, p.2, lit "input")
  | none =>
    match matchNodeWith (lit "((") (lit "))") line with
    | some p => some (p.1, p.2, lit "output")
    | none =>
      match matchNodeWith (lit "\x7b") (lit "\x7d") line with
      | some p => some (p.1, p.2, lit "selector")
      | none =>
        match matchNodeWith (lit "[") (lit "]") line with
        | some p => some (p.1, p.2, defaultType)
        | none => none

/-- Tail `(?:\s*:\s*(.+))?$` of `_EDGE_RE`: either end-of-line, or a colon
(after optional whitespace) followed by the label group. -/
def optLabelPart (rest : Str) : Option (Option Str) :=
  if rest.isEmpty then some none
  else
    match rest.dropWhile pyIsSpace with
    | [] => none
    | c :: r2 =>
      if c = ':' then
        let r3 := r2.dropWhile pyIsSpace
        if r3.isEmpty then
          match r2.getLast? with
          | some d => some (some [d])
          | none => none
        else some r3
      else none

/-- Part `\[(.+?)\](?:\s*:\s*(.+))?$` of `_EDGE_RE` (the target bracket). -/
def edgeTarget (s : Str) : Option (Str × Option Str) :=
  match s with
  | [] => none
  | c :: rest => if c = '[' then lazyGroup (lit "]") optLabelPart rest else none

/-- Part `\s*->\s*\[...` of `_EDGE_RE`, entered after the source's `]`. -/
def afterG1 (s : Str) : Option (Str × Option Str) :=
  match s.dropWhile pyIsSpace with
  | '-' :: '>' :: r2 => edgeTarget (r2.dropWhile pyIsSpace)
  | _ => none

/-- `_EDGE_RE = ^\[(.+?)\]\s*->\s*\[(.+?)\](?:\s*:\s*(.+))?$`, result
`(source, target, label-group)`. -/
def matchEdge (line : Str) : Option (Str × Str × Option Str) :=
  match line with
  | [] => none
  | c :: rest =>
    if c = '[' then
      (lazyGroup (lit "]") afterG1 rest).map (fun p => (p.1, p.2.1, p.2.2))
    else none

-- ─────────────────────────────────────────────────────────────
-- _FLOW_RE scanning
-- ─────────────────────────────────────────────────────────────

/-- Splits at the first occurrence of three consecutive backticks, as the
lazy group of `_FLOW_RE` does; `none` when no closing fence exists. -/
def takeUntilTicks : Str → Option (Str × Str)
  | [] => none
  | c :: rest =>
    if c = tick ∧ (lit "``").isPrefixOf rest then some ([], rest.drop 2)
    else (takeUntilTicks rest).map (fun p => (c :: p.1, p.2))

/-- Attempts `_FLOW_RE` anchored at the start: the literal opening fence
with `\r?\n`, then the lazy body up to the first closing fence. Returns
the block body and the text after the closing fence. -/
def matchFlowOpen (s : Str) : Option (Str × Str) :=
  if (lit "```flow\r\n").isPrefixOf s then takeUntilTicks (s.drop 9)
  else if (lit "```flow\n").isPrefixOf s then takeUntilTicks (s.drop 8)
  else none

/-- Fueled scan of `_FLOW_RE.finditer`: leftmost non-overlapping matches. -/
def findBlocksAux : Nat → Str → List Str
  | 0, _ => []
  | _, [] => []
  | fuel + 1, s@(_ :: rest) =>
    match matchFlowOpen s with
    | some p => p.1 :: findBlocksAux fuel p.2
    | none => findBlocksAux fuel rest

/-- All `_FLOW_RE` match bodies in the document, in order. -/
def findBlocks (s : Str) : List Str := findBlocksAux s.length s

-- ─────────────────────────────────────────────────────────────
-- _parse_flow
-- ─────────────────────────────────────────────────────────────

/-- The running state of `_parse_flow`: node and edge accumulators, the
`seen_nodes` set (modelled as a list queried by membership) and the edge
counter `edge_n`. -/
structure PState where
  nodes : List Node
  edges : List Edge
  seen : List Str
  edgeN : Nat
deriving DecidableEq

/-- Derived id `e{n}-{src}-{tgt}` of a parsed edge. -/
def edgeId (n : Nat) (src tgt : Str) : Str :=
  'e' :: (natToStr n ++ ('-' :: (src ++ ('-' :: tgt))))

/-- `if nid not in seen_nodes: nodes.append({...}); seen_nodes.add(nid)`
for an edge endpoint (auto-materialised default node, label = id). -/
def insertUnseen (st : PState) (nid : Str) : PState :=
  if nid ∈ st.seen then st
  else { st with nodes := st.nodes ++ [Node.mk nid nid defaultType],
                 seen := st.seen ++ [nid] }

/-- One iteration of `_parse_flow`'s line loop. -/
def parseLine (st : PState) (rawLine : Str) : PState :=
  let line := pyStrip rawLine
  if line.isEmpty then st
  else
    match matchEdge line with
    | some g =>
      let st1 := insertUnseen (insertUnseen st g.1) g.2.1
      let e := Edge.mk (edgeId st.edgeN g.1 g.2.1) g.1 g.2.1 (g.2.2.map pyStrip)
      { st1 with edges := st1.edges ++ [e], edgeN := st.edgeN + 1 }
    | none =>
      match matchNode line with
      | some t =>
        if t.1 ∈ st.seen then st
        else { st with nodes := st.nodes ++ [Node.mk t.1 t.2.1 t.2.2],
                       seen := st.seen ++ [t.1] }
      | none => st

/-- All lines of one matched flow-block body. -/
def parseBlock (st : PState) (content : Str) : PState :=
  (pySplitlines content).foldl parseLine st

/-- `_parse_flow(markdown)`: every matched block feeds one shared state. -/
def parseFlow (markdown : Str) : List Node × List Edge :=
  let st := (findBlocks markdown).foldl parseBlock (PState.mk [] [] [] 0)
  (st.nodes, st.edges)

-- ─────────────────────────────────────────────────────────────
-- Serialisation (_serialize_node / _serialize_edge / _build_flow_block)
-- ─────────────────────────────────────────────────────────────

/-- `_serialize_node`: bracket notation per type, `default` shape for any
unrecognised type. -/
def serializeNode (n : Node) : Str :=
  if n.type = lit "input" then
    '[' :: ('[' :: (n.id ++ (']' :: (']' :: (' ' :: n.label)))))
  else if n.type = lit "output" then
    '(' :: ('(' :: (n.id ++ (')' :: (')' :: (' ' :: n.label)))))
  else if n.type = lit "selector" then
    '\x7b' :: (n.id ++ ('\x7d' :: (' ' :: n.label)))
  else
    '[' :: (n.id ++ (']' :: (' ' :: n.label)))

/-- `_serialize_edge`: `[source] -> [target]`, plus ` : label` when the
label key is present and truthy. -/
def serializeEdge (e : Edge) : Str :=
  let base := '[' :: (e.source ++ (']' :: (' ' :: ('-' :: ('>' :: (' ' :: ('[' :: (e.target ++ [']']))))))))
  match e.label with
  | some l => if l.isEmpty then base else base ++ (' ' :: (':' :: (' ' :: l)))
  | none => base

/-- `_build_flow_block(nodes, edges)`. -/
def buildFlowBlock (nodes : List Node) (edges : List Edge) : Str :=
  lit "```flow\n" ++ joinSep (lit "\n") (nodes.map serializeNode)
    ++ (if edges.isEmpty then [] else lit "\n\n")
    ++ joinSep (lit "\n") (edges.map serializeEdge) ++ lit "\n```"

-- ─────────────────────────────────────────────────────────────
-- JSON values and json.loads
-- ─────────────────────────────────────────────────────────────

/-- A parsed JSON value (Python `json.loads` result). Numbers are
restricted to integers: floating-point literals are outside this
embedding. -/
inductive JVal where
  | null : JVal
  | bool : Bool → JVal
  | int : Int → JVal
  | str : Str → JVal
  | arr : List JVal → JVal
  | obj : List (Str × JVal) → JVal

/-- Python dict lookup on the parsed members of a JSON object: a later
duplicate key overwrites an earlier one. -/
def dictGet (kvs : List (Str × JVal)) (k : Str) : Option JVal :=
  kvs.foldl (fun acc kv => if kv.1 = k then some kv.2 else acc) none

/-- JSON whitespace accepted between tokens by `json.loads`. -/
def jsonWs (c : Char) : Bool := c = ' ' || c = '\t' || c = '\n' || c = '\r'

/-- Is an ASCII decimal digit. -/
def isDigitCh (c : Char) : Bool := '0' ≤ c ∧ c ≤ '9'

/-- Body of a JSON string after the opening quote, with the simple
backslash escapes (no `\uXXXX`); unescaped control characters are
rejected as `json.loads` does in strict mode. -/
def parseJStringBody : Nat → Str → Option (Str × Str)
  | 0, _ => none
  | _, [] => none
  | fuel + 1, c :: rest =>
    if c = '"' then some ([], rest)
    else if c = '\\' then
      match rest with
      | [] => none
      | e :: rest2 =>
        let esc : Option Char :=
          if e = '"' then some '"'
          else if e = '\\' then some '\\'
          else if e = '/' then some '/'
          else if e = 'b' then some '\x08'
          else if e = 'f' then some '\x0c'
          else if e = 'n' then some '\n'
          else if e = 'r' then some '\r'
          else if e = 't' then some '\t'
          else none
        match esc with
        | some d => (parseJStringBody fuel rest2).map (fun p => (d :: p.1, p.2))
        | none => none
    else if c.toNat < 32 then none
    else (parseJStringBody fuel rest).map (fun p => (c :: p.1, p.2))

/-- Numeric value of a digit run with its sign. -/
def jsonDigitsVal (neg : Bool) (digits : Str) : Int :=
  let v : Nat := digits.foldl (fun a c => a * 10 + (c.toNat - 48)) 0
  if neg then -(v : Int) else (v : Int)

/-- A JSON integer literal: optional minus, then `0` or a nonzero-led
digit run, not followed by a fraction or exponent. -/
def parseIntTok (s : Str) : Option (Int × Str) :=
  let neg : Bool := s.head? = some '-'
  let s1 := if neg then s.tail else s
  let digits := s1.takeWhile isDigitCh
  if digits.isEmpty then none
  else if digits.head? = some '0' ∧ 1 < digits.length then none
  else
    let rest := s1.drop digits.length
    match rest.head? with
    | some c => if c = '.' ∨ c = 'e' ∨ c = 'E' then none else
        some (jsonDigitsVal neg digits, rest)
    | none => some (jsonDigitsVal neg digits, rest)

mutual

/-- One JSON value at the head of the input (whitespace already skipped). -/
def parseJVal : Nat → Str → Option (JVal × Str)
  | 0, _ => none
  | fuel + 1, s =>
    match s with
    | 'n' :: 'u' :: 'l' :: 'l' :: r => some (.null, r)
    | 't' :: 'r' :: 'u' :: 'e' :: r => some (.bool true, r)
    | 'f' :: 'a' :: 'l' :: 's' :: 'e' :: r => some (.bool false, r)
    | '"' :: r => (parseJStringBody r.length r).map (fun p => (.str p.1, p.2))
    | '[' :: r =>
      let r1 := r.dropWhile jsonWs
      if r1.head? = some ']' then some (.arr [], r1.tail)
      else (parseJItems fuel r1).map (fun p => (.arr p.1, p.2))
    | '\x7b' :: r =>
      let r1 := r.dropWhile jsonWs
      if r1.head? = some '\x7d' then some (.obj [], r1.tail)
      else (parseJMembers fuel r1).map (fun p => (.obj p.1, p.2))
    | _ => (parseIntTok s).map (fun p => (.int p.1, p.2))

/-- Comma-separated array items up to `]`. -/
def parseJItems : Nat → Str → Option (List JVal × Str)
  | 0, _ => none
  | fuel + 1, s =>
    match parseJVal fuel s with
    | none => none
    | some (v, r) =>
      let r1 := r.dropWhile jsonWs
      match r1.head? with
      | some ',' => (parseJItems fuel ((r1.tail).dropWhile jsonWs)).map
          (fun p => (v :: p.1, p.2))
      | some ']' => some ([v], r1.tail)
      | _ => none

/-- Comma-separated `"key": value` members up to the closing brace. -/
def parseJMembers : Nat → Str → Option (List (Str × JVal) × Str)
  | 0, _ => none
  | fuel + 1, s =>
    match s with
    | '"' :: r =>
      match parseJStringBody r.length r with
      | none => none
      | some (k, r1) =>
        let r2 := r1.dropWhile jsonWs
        match r2.head? with
        | some ':' =>
          match parseJVal fuel ((r2.tail).dropWhile jsonWs) with
          | none => none
          | some (v, r3) =>
            let r4 := r3.dropWhile jsonWs
            match r4.head? with
            | some ',' => (parseJMembers fuel ((r4.tail).dropWhile jsonWs)).map
                (fun p => ((k, v) :: p.1, p.2))
            | some '\x7d' => some ([(k, v)], r4.tail)
            | _ => none
        | _ => none
    | _ => none

end

/-- Python `json.loads` on the modelled grammar: one value, surrounded by
optional whitespace, consuming the entire input. -/
def jsonLoads (s : Str) : Option JVal :=
  match parseJVal (2 * s.length + 2) (s.dropWhile jsonWs) with
  | some (v, rest) => if (rest.dropWhile jsonWs).isEmpty then some v else none
  | none => none

/-- Python `len()` on a parsed JSON value: defined for arrays, strings
and objects (distinct keys), a `TypeError` otherwise. -/
def pyLen : JVal → Except Str Nat
  | .arr xs => .ok xs.length
  | .str s => .ok s.length
  | .obj kvs => .ok (kvs.map Prod.fst).dedup.length
  | _ => .error (lit "TypeError")

/-- Python `int()` applied to a string: surrounding whitespace, one
optional sign, then ASCII digits. -/
def pyIntOfString (s : Str) : Option Int :=
  let t := pyStrip s
  let neg : Bool := t.head? = some '-'
  let t1 := if t.head? = some '-' ∨ t.head? = some '+' then t.tail else t
  if t1.isEmpty ∨ ¬(t1.all isDigitCh) then none
  else some (jsonDigitsVal neg t1)

/-- Python `int()` coercion as applied to a decoded JSON value. -/
def pyInt : JVal → Except Str Int
  | .int n => .ok n
  | .bool b => .ok (if b then 1 else 0)
  | .str s =>
    match pyIntOfString s with
    | some n => .ok n
    | none => .error (lit "ValueError")
  | _ => .error (lit "TypeError")

-- ─────────────────────────────────────────────────────────────
-- FlowEditorPlugin
-- ─────────────────────────────────────────────────────────────

/-- The mutable state of `FlowEditorPlugin`: `nodes`, `edges` and the
informational `_edge_counter` (initialised to `len(edges)`). -/
structure Plugin where
  nodes : List Node
  edges : List Edge
  edgeCounter : Nat
deriving DecidableEq

/-- `FlowEditorPlugin._node_index`: index of the first node with the
given id (the Python `enumerate` loop, written as recursion). -/
def nodeIndex (nodes : List Node) (node_id : Str) : Option Nat :=
  match nodes with
  | [] => none
  | n :: ns => if n.id = node_id then some 0 else (nodeIndex ns node_id).map (· + 1)

/-- `FlowEditorPlugin.add_node` (Python default `node_type="default"`). -/
def add_node (st : Plugin) (node_id label node_type : Str) : Plugin × Str :=
  match nodeIndex st.nodes node_id with
  | some _ => (st, lit "Node \x27" ++ node_id ++ lit "\x27 already exists.")
  | none =>
    (Plugin.mk (st.nodes ++ [Node.mk node_id label node_type]) st.edges st.edgeCounter,
     lit "Added " ++ node_type ++ lit " node \x27" ++ node_id ++ lit "\x27 (" ++ label ++ lit ").")

/-- `FlowEditorPlugin.remove_node`: pops the node at its first index and
filters out every edge touching the id. -/
def remove_node (st : Plugin) (node_id : Str) : Plugin × Str :=
  match nodeIndex st.nodes node_id with
  | none => (st, lit "Node \x27" ++ node_id ++ lit "\x27 not found.")
  | some idx =>
    let nodes' := st.nodes.eraseIdx idx
    let edges' := st.edges.filter
      (fun e => decide (e.source ≠ node_id) && decide (e.target ≠ node_id))
    let removed := st.edges.length - edges'.length
    (Plugin.mk nodes' edges' st.edgeCounter,
     lit "Removed node \x27" ++ node_id ++ lit "\x27 and " ++ natToStr removed
       ++ lit " connected edge(s).")

/-- `FlowEditorPlugin.add_edge` (Python default `label=""`):
auto-creates missing endpoints (source first) as default nodes, then
appends an edge with derived id `e-{source}-{target}`. -/
def add_edge (st : Plugin) (source target label : Str) : Plugin × Str :=
  let ns1 := if nodeIndex st.nodes source = none
    then st.nodes ++ [Node.mk source source defaultType] else st.nodes
  let ns2 := if nodeIndex ns1 target = none
    then ns1 ++ [Node.mk target target defaultType] else ns1
  let e := Edge.mk ('e' :: ('-' :: (source ++ ('-' :: target)))) source target
    (if label.isEmpty then none else some label)
  (Plugin.mk ns2 (st.edges ++ [e]) (st.edgeCounter + 1),
   lit "Added edge " ++ source ++ lit " → " ++ target
     ++ (if label.isEmpty then [] else lit " : " ++ label) ++ lit ".")

/-- `FlowEditorPlugin.remove_edge`: drops every edge whose (source,
target) pair matches. -/
def remove_edge (st : Plugin) (source target : Str) : Plugin × Str :=
  let edges' := st.edges.filter
    (fun e => !(decide (e.source = source) && decide (e.target = target)))
  if edges'.length = st.edges.length then
    (st, lit "Edge " ++ source ++ lit " → " ++ target ++ lit " not found.")
  else
    (Plugin.mk st.nodes edges' st.edgeCounter,
     lit "Removed edge " ++ source ++ lit " → " ++ target ++ lit ".")

/-- `FlowEditorPlugin.replace_flow`: `json.loads` both payloads with no
exception handling — a decode failure propagates (Python mutates
`self.nodes` before parsing `edges_json`; this embedding returns the
stored values on success and the raised error otherwise). -/
def replace_flow (nodes_json edges_json : Str) : Except Str (JVal × JVal × Str) :=
  match jsonLoads nodes_json with
  | none => .error (lit "JSONDecodeError")
  | some nv =>
    match jsonLoads edges_json with
    | none => .error (lit "JSONDecodeError")
    | some ev =>
      match pyLen nv, pyLen ev with
      | .ok a, .ok b =>
        .ok (nv, ev, lit "Replaced flow: " ++ natToStr a ++ lit " nodes, "
          ++ natToStr b ++ lit " edges.")
      | _, _ => .error (lit "TypeError")

/-- Modelled reading of one node dict stored by `replace_flow`, with the
accessors the rest of the code applies to it: `n["id"]` (required
string), `n.get("label", n["id"])` and `n.get("type", "default")`. -/
def decodeNode : JVal → Option Node
  | .obj kvs =>
    match dictGet kvs (lit "id") with
    | some (.str i) =>
      let l := match dictGet kvs (lit "label") with
        | some (.str l) => l
        | _ => i
      let t := match dictGet kvs (lit "type") with
        | some (.str t) => t
        | _ => defaultType
      some (Node.mk i l t)
    | _ => none
  | _ => none

/-- Modelled reading of a node array stored by `replace_flow`. -/
def decodeNodes : JVal → Option (List Node)
  | .arr xs => xs.mapM decodeNode
  | _ => none

-- ─────────────────────────────────────────────────────────────
-- Reply cleaning and JSON extraction (run_flow_agent, lines 596-607)
-- ─────────────────────────────────────────────────────────────

/-- `re.sub(r"```(?:json)?\s*", "", raw)`: fueled left-to-right scan. -/
def sub1Go : Nat → Str → Str
  | 0, s => s
  | fuel + 1, s =>
    if (lit "```").isPrefixOf s then
      let r := s.drop 3
      let r := if (lit "json").isPrefixOf r then r.drop 4 else r
      sub1Go fuel (r.dropWhile pyIsSpace)
    else
      match s with
      | [] => []
      | c :: rest => c :: sub1Go fuel rest

/-- Index just after the last newline of a whitespace run, if any. -/
def lastNewlinePos (ws : Str) : Option Nat :=
  match ws.reverse.findIdx? (fun c => c == '\n') with
  | some j => some (ws.length - 1 - j)
  | none => none

/-- `re.sub(r"```\s*$", "", cleaned, flags=re.MULTILINE)`: the greedy
`\s*` backtracks until `$` holds, i.e. to the end of the text or to just
before the last newline of the whitespace run. -/
def sub2Go : Nat → Str → Str
  | 0, s => s
  | fuel + 1, s =>
    if (lit "```").isPrefixOf s then
      let rest := s.drop 3
      let ws := rest.takeWhile pyIsSpace
      if (rest.drop ws.length).isEmpty then sub2Go fuel (rest.drop ws.length)
      else
        match lastNewlinePos ws with
        | some k => sub2Go fuel (rest.drop k)
        | none =>
          match s with
          | [] => []
          | c :: r => c :: sub2Go fuel r
    else
      match s with
      | [] => []
      | c :: rest => c :: sub2Go fuel rest

/-- The fence-stripping step of `run_flow_agent` applied to the raw
model reply. -/
def cleanReply (raw : Str) : Str :=
  let c1 := sub1Go raw.length raw
  sub2Go c1.length c1

/-- `re.search(r"\{[\s\S]*\}", cleaned)`: from the first opening brace
to the last closing brace after it. -/
def extractJsonSpan (s : Str) : Option Str :=
  let t := s.dropWhile (fun c => !(c == '\x7b'))
  let u := (t.reverse.dropWhile (fun c => !(c == '\x7d'))).reverse
  if 2 ≤ u.length then some u else none

-- ─────────────────────────────────────────────────────────────
-- Reconciliation (run_flow_agent, lines 594-639)
-- ─────────────────────────────────────────────────────────────

/-- `_FLOW_RE.sub(repl, markdown)`: replaces every flow block (the
replacement text is spliced literally; replacement-string backslash
escapes are outside this embedding). -/
def flowSubGo (repl : Str) : Nat → Str → Str
  | 0, s => s
  | fuel + 1, s =>
    match matchFlowOpen s with
    | some p => repl ++ flowSubGo repl fuel p.2
    | none =>
      match s with
      | [] => []
      | c :: rest => c :: flowSubGo repl fuel rest

/-- `_FLOW_RE.sub(repl, markdown)` with sufficient fuel. -/
def flowSub (repl markdown : Str) : Str := flowSubGo repl markdown.length markdown

/-- Default summary string `"フローを更新しました。"`. -/
def defaultSummary : Str := lit "フローを更新しました。"

/-- The Suggestion fields computed by the reconciliation step (the
generated uuid, trace log and wall-clock duration are not modelled). -/
structure Sugg where
  markdown : JVal
  summary : JVal
  nodesDelta : Int
  edgesDelta : Int
  changedNodeIds : JVal
  changedEdgeIds : JVal

/-- Fallback `changed_node_ids`: ids of current nodes absent from the
original graph, in current order. -/
def fallbackChanged (cur origN : List Node) : List Str :=
  (cur.filter (fun n => decide (¬ n.id ∈ origN.map Node.id))).map Node.id

/-- The reconciliation of `run_flow_agent` (everything after the agent
reply): clean the reply, extract a `{...}` span, trust it when it parses
(an unparseable span raises, `json.loads` being unguarded), otherwise
rebuild the document from the plugin state. -/
def reconcile (markdown raw : Str) (plugin : Plugin)
    (origNodes : List Node) (origEdges : List Edge) : Except Str Sugg :=
  let cleaned := cleanReply raw
  match extractJsonSpan cleaned with
  | some span =>
    match jsonLoads span with
    | none => .error (lit "JSONDecodeError")
    | some v =>
      match v with
      | .obj kvs => do
        let nd ← pyInt ((dictGet kvs (lit "nodesDelta")).getD (.int 0))
        let ed ← pyInt ((dictGet kvs (lit "edgesDelta")).getD (.int 0))
        .ok (Sugg.mk ((dictGet kvs (lit "markdown")).getD (.str markdown))
          ((dictGet kvs (lit "summary")).getD (.str defaultSummary))
          nd ed
          ((dictGet kvs (lit "changedNodeIds")).getD (.arr []))
          ((dictGet kvs (lit "changedEdgeIds")).getD (.arr [])))
      | _ => .error (lit "AttributeError")
  | none =>
    let fb := buildFlowBlock plugin.nodes plugin.edges
    let um := flowSub fb markdown
    let um := if um = markdown ∧ plugin.nodes ≠ origNodes
      then pyRstrip markdown ++ lit "\n\n" ++ fb ++ ['\n'] else um
    .ok (Sugg.mk (.str um) (.str defaultSummary)
      ((plugin.nodes.length : Int) - (origNodes.length : Int))
      ((plugin.edges.length : Int) - (origEdges.length : Int))
      (.arr ((fallbackChanged plugin.nodes origNodes).map JVal.str))
      (.arr []))

-- ─────────────────────────────────────────────────────────────
-- System instructions (run_flow_agent, lines 558-572)
-- ─────────────────────────────────────────────────────────────

/-- `BASE_SYSTEM_PROMPT` (module constant, also aliased `SYSTEM_PROMPT`). -/
def BASE_SYSTEM_PROMPT : Str := lit "You are FlowNote AI, a diagram and flowchart design assistant embedded in the FlowNote application.\nUsers write notes in Markdown that contain ```flow code blocks describing various diagrams.\nYour job is to understand the user\x27s intent and return an updated version of the Markdown.\n\n## Flow Block Syntax (CRITICAL – follow exactly)\n\n### Node Types\n| Syntax              | Shape          | Use for                          |\n|---------------------|----------------|----------------------------------|\n| `[[id]] Label`      | Rounded rect   | Start / source / input / cause   |\n| `((id)) Label`      | Circle         | End / goal / output / result     |\n| `\x7bid\x7d Label`        | Diamond        | Decision / branch / evaluation   |\n| `[id] Label`        | Rectangle      | Default / process / item         |\n\n### Edge Syntax\n```\n[source] -> [target]           (no label)\n[source] -> [target] : Label   (with label)\n```\n\n### Node ID Rules\n- Lowercase alphanumeric and hyphens ONLY (e.g. `my-node`, `step1`)\n- NO spaces, NO special chars except `-`\n\n### CRITICAL Edge Rules\n- Edge lines ALWAYS use plain `[id]` brackets for BOTH source and target\n- NEVER write `[[id]] -> [other]` or `[src] -> ((id))` in edge lines\n- Even if a node is defined as `[[start]]` or `((end))`, edges must use `[start] -> [end]`\n\n## Template Pattern Reference\n\n### Fishbone / Cause-Effect\n- Cause nodes: `[[cause_x]] Category` (input nodes)\n- Effect node: `((effect)) Problem` (output)\n- Edges: `[cause_x] -> [effect]`\n\n### Mind Map\n- Center: `[[center]] Main Topic` (input)\n- Branches: `[cat_x] Category` (default)\n- Sub-items: `[item_x] Item` (default)\n- Edges radiate outward: `[center] -> [cat_x]`, `[cat_x] -> [item_x]`\n\n### Process Flowchart\n- Start: `[[start]] Begin` (input), End: `((end)) Done` (output)\n- Decisions: `\x7bcheck_x\x7d Question?` (selector/diamond)\n- Steps: `[step_x] Task` (default)\n- Conditional edges: `[check_x] -> [step_x] : Yes`\n\n### SWOT Analysis\n- Quadrant axes: `[[strength]] 強み (S)`, `[[weakness]] 弱み (W)`, `[[opportunity]] 機会 (O)`, `[[threat]] 脅威 (T)`\n- Items: `[s1] Detail` (default)\n- Strategy output: `((strategy)) SO戦略` (output for top strategy)\n\n### Customer Journey Map\n- Start phase: `[[phase_aware]] 認知フェーズ` (input)\n- Mid phases: `[phase_x] フェーズ名` (default)\n- Final goal: `((phase_advocate)) 推奨フェーズ` (output)\n- Touchpoints: `[touch_x] タッチポイント` (default)\n\n### User Story Map\n- Epics: `[[epic_x]] Epic Name` (input)\n- Stories/Tasks: `[story_x] Story`, `[task_x] Task` (default)\n- Milestones: `((milestone_x)) Release v1` (output)\n\n### Org Chart\n- Top: `[[ceo]] CEO` (input)\n- Departments/Roles: `[dept_x] Team` (default)\n- Special units: `((unit_x)) New Division` (output)\n- Edges represent reporting lines: `[manager] -> [report]`\n\n### Roadmap / Timeline\n- Phase starts: `[[q1]] Q1: Planning` (input)\n- Tasks/Deliverables: `[task_x] Task` (default)\n- Goal/KPI: `((goal)) Year-End OKR` (output)\n\n### State Machine\n- Initial state: `[[state_initial]] Initial` (input)\n- States: `[state_x] State Name` (default)\n- Guard/condition: `\x7bguard_x\x7d Condition` (selector)\n- Final state: `((state_done)) Completed` (output)\n- Transitions: `[state_a] -> [state_b] : event()`\n\n### Risk Analysis\n- Start: `[[risk_identify]] Risk ID` (input)\n- Risk / action items: `[risk_x] Risk`, `[action_x] Mitigation` (default)\n- Evaluation branch: `\x7beval_x\x7d Evaluate` (selector)\n- Register: `((risk_register)) Risk Register` (output)\n\n## Tools at your disposal\nCall these tools to manipulate the flow:\n- add_node: add a new node\n- remove_node: remove a node and its connected edges\n- add_edge: connect two nodes with an optional label\n- remove_edge: remove a connection\n- replace_flow: completely replace all nodes and edges\n\n## Markdown Preservation Rules\n- ALWAYS keep the full Markdown (title, prose sections, the ```flow block)\n- ONLY modify the content inside the ```flow ... ``` block when using tools\n- When using replace_flow or returning full markdown in JSON, include the ENTIRE document\n\n## Output Format\nAfter applying changes, respond with ONLY this valid JSON (no markdown fences, no extra text):\n\x7b\n  \"markdown\": \"<complete Markdown document including title, prose, and updated ```flow block>\",\n  \"summary\": \"<Japanese: 1-2 sentence description of what changed>\",\n  \"nodesDelta\": <integer>,\n  \"edgesDelta\": <integer>,\n  \"changedNodeIds\": [\"<id>\", ...],\n  \"changedEdgeIds\": [\"<e-source-target>\", ...]\n\x7d\n\nIf the request is unclear or no change is needed, return the original markdown with nodesDelta=0.\n"

/-- The `context` dict fields read (or claimed to be read) by
`run_flow_agent`; values are modelled as strings. -/
def ctxGet (ctx : List (Str × Str)) (k : Str) : Option Str :=
  ctx.foldl (fun acc kv => if kv.1 = k then some kv.2 else acc) none

/-- The instruction assembly of `run_flow_agent`: the template addendum
is driven by `context.get("systemPrompt", "").strip()` and labelled by
`context.get("templateId") or "custom"`. -/
def combinedInstructions (ctx : List (Str × Str)) : Str :=
  let template_id := ctxGet ctx (lit "templateId")
  let tsp := pyStrip ((ctxGet ctx (lit "systemPrompt")).getD [])
  if tsp.isEmpty then BASE_SYSTEM_PROMPT
  else
    BASE_SYSTEM_PROMPT ++ lit "\n\n" ++ lit "## Template-Specific Role\n"
      ++ lit "(Template: "
      ++ (match template_id with
          | some t => if t.isEmpty then lit "custom" else t
          | none => lit "custom")
      ++ lit ")\n" ++ tsp

-- ─────────────────────────────────────────────────────────────
-- Well-formedness (the side conditions of the amended round trip)
-- ─────────────────────────────────────────────────────────────

/-- Characters allowed by the spec's Node ID Rules: lowercase
alphanumerics and hyphens. -/
def idChar (c : Char) : Bool :=
  ('a' ≤ c && c ≤ 'z') || ('0' ≤ c && c ≤ '9') || c = '-'

/-- A spec-conforming node id: nonempty over `[a-z0-9-]`. -/
def idOk (s : Str) : Bool := !s.isEmpty && s.all idChar

/-- Label characters that survive serialisation: no line breaks, no
backticks (which would close the fenced block early) and no `]` (which
could turn a node line into an edge line). -/
def labelChar (c : Char) : Bool := !isLineBreak c && !(c = tick) && !(c = ']')

/-- A round-trippable label: nonempty, made of `labelChar`s, neither
starting nor ending with whitespace. -/
def labelOk (s : Str) : Bool :=
  s.all labelChar &&
  (match s.head? with | some c => !pyIsSpace c | none => false) &&
  (match s.getLast? with | some c => !pyIsSpace c | none => false)

/-- An optional edge label that round-trips: absent, or a good label. -/
def labelOptOk : Option Str → Bool
  | none => true
  | some l => labelOk l

/-- One of the four node types of the data model. -/
def typeOk (t : Str) : Bool :=
  t = lit "default" || t = lit "input" || t = lit "output" || t = lit "selector"

/-- A well-formed node. -/
def wfNode (n : Node) : Bool := idOk n.id && labelOk n.label && typeOk n.type

/-- A well-formed edge over the given nodes: conforming endpoint ids
that are declared as nodes, and a round-trippable label. -/
def wfEdge (ns : List Node) (e : Edge) : Bool :=
  idOk e.source && idOk e.target &&
  decide (e.source ∈ ns.map Node.id) && decide (e.target ∈ ns.map Node.id) &&
  labelOptOk e.label

/-- A well-formed graph: well-formed nodes with pairwise-distinct ids,
and well-formed edges between declared nodes. -/
def WFGraph (ns : List Node) (es : List Edge) : Prop :=
  ns.all wfNode = true ∧ (ns.map Node.id).Nodup ∧ es.all (wfEdge ns) = true

instance (ns : List Node) (es : List Edge) : Decidable (WFGraph ns es) := by
  unfold WFGraph; infer_instance

/-- The (id, label, type) triple of a node. -/
def nodeTriple (n : Node) : Str × Str × Str := (n.id, n.label, n.type)

/-- The (source, target, label) triple of an edge — the identity of an
edge up to its derived id. -/
def edgeTriple (e : Edge) : Str × Str × Option Str := (e.source, e.target, e.label)

/-- The edges `_parse_flow` rebuilds from serialised edge lines: same
triples, derived ids `e{n}-{source}-{target}` numbered from `n`. -/
def reIndex : Nat → List Edge → List Edge
  | _, [] => []
  | n, e :: es => Edge.mk (edgeId n e.source e.target) e.source e.target e.label
      :: reIndex (n + 1) es

-- ─────────────────────────────────────────────────────────────
-- Helper lemmas: characters and basic string operations
-- ─────────────────────────────────────────────────────────────

theorem idOk_facts (s : Str) (h : idOk s = true) :
    s ≠ [] ∧ ∀ c ∈ s, idChar c = true := by
  simp only [idOk, Bool.and_eq_true, List.all_eq_true, List.isEmpty_iff,
    Bool.not_eq_true'] at h
  exact ⟨by simpa using h.1, h.2⟩

theorem labelOk_facts (s : Str) (h : labelOk s = true) :
    (∀ c ∈ s, labelChar c = true) ∧ s ≠ [] ∧
    (∀ c, s.head? = some c → pyIsSpace c = false) ∧
    (∀ c, s.getLast? = some c → pyIsSpace c = false) := by
  simp only [labelOk, Bool.and_eq_true, List.all_eq_true] at h
  obtain ⟨⟨hall, hh⟩, hl⟩ := h
  refine ⟨hall, ?_, ?_, ?_⟩
  · intro he; subst he; simp at hh
  · intro c hc; rw [hc] at hh; simpa using hh
  · intro c hc; rw [hc] at hl; simpa using hl

theorem labelChar_facts (c : Char) (h : labelChar c = true) :
    isLineBreak c = false ∧ c ≠ tick ∧ c ≠ ']' := by
  simp only [labelChar, Bool.and_eq_true, Bool.not_eq_true', decide_eq_false_iff_not] at h
  exact ⟨h.1.1, h.1.2, h.2⟩

theorem idChar_not_special (c : Char) (h : idChar c = true) :
    c ≠ '[' ∧ c ≠ ']' ∧ c ≠ '(' ∧ c ≠ ')' ∧ c ≠ '\x7b' ∧ c ≠ '\x7d' ∧ c ≠ tick := by
  refine ⟨?_, ?_, ?_, ?_, ?_, ?_, ?_⟩ <;> (rintro rfl; revert h; decide)

theorem pyIsSpace_cases (c : Char) (h : pyIsSpace c = true) :
    c = ' ' ∨ c = '\t' ∨ c = '\n' ∨ c = '\r' ∨ c = '\x0b' ∨ c = '\x0c' ∨
    c = '\x1c' ∨ c = '\x1d' ∨ c = '\x1e' ∨ c = '\x85' ∨ c = '\u2028' ∨ c = '\u2029' ∨
    c = '\x1f' ∨ c = '\xa0' := by
  simp only [pyIsSpace, isLineBreak, Bool.or_eq_true, decide_eq_true_eq] at h
  tauto

theorem isLineBreak_cases (c : Char) (h : isLineBreak c = true) :
    c = '\n' ∨ c = '\r' ∨ c = '\x0b' ∨ c = '\x0c' ∨ c = '\x1c' ∨ c = '\x1d' ∨
    c = '\x1e' ∨ c = '\x85' ∨ c = '\u2028' ∨ c = '\u2029' := by
  simp only [isLineBreak, Bool.or_eq_true, decide_eq_true_eq] at h
  tauto

theorem idChar_not_space (c : Char) (h : idChar c = true) : pyIsSpace c = false := by
  by_contra hc
  rcases pyIsSpace_cases c (by revert hc; cases pyIsSpace c <;> simp) with
    rfl | rfl | rfl | rfl | rfl | rfl | rfl | rfl | rfl | rfl | rfl | rfl | rfl | rfl <;>
    revert h <;> decide

theorem idChar_not_break (c : Char) (h : idChar c = true) : isLineBreak c = false := by
  by_contra hc
  rcases isLineBreak_cases c (by revert hc; cases isLineBreak c <;> simp) with
    rfl | rfl | rfl | rfl | rfl | rfl | rfl | rfl | rfl | rfl <;> revert h <;> decide

theorem labelChar_not_break (c : Char) (h : labelChar c = true) : isLineBreak c = false :=
  (labelChar_facts c h).1

theorem dropWhile_eq_self_of_head (p : Char → Bool) (s : Str)
    (h : ∀ c, s.head? = some c → p c = false) : s.dropWhile p = s := by
  cases s with
  | nil => rfl
  | cons c t => simp [List.dropWhile_cons, h c rfl]

theorem pyStrip_fix (s : Str)
    (h1 : ∀ c, s.head? = some c → pyIsSpace c = false)
    (h2 : ∀ c, s.getLast? = some c → pyIsSpace c = false) : pyStrip s = s := by
  unfold pyStrip
  rw [dropWhile_eq_self_of_head _ _ h1]
  rw [dropWhile_eq_self_of_head _ _ (fun c hc => h2 c (by rwa [List.head?_reverse] at hc))]
  exact List.reverse_reverse s

theorem isPrefixOf_self_append (l r : Str) : l.isPrefixOf (l ++ r) = true := by
  induction l with
  | nil => simp
  | cons c t ih => simp [List.isPrefixOf_cons₂, ih]

-- ─────────────────────────────────────────────────────────────
-- Helper lemmas: lazy group scanning
-- ─────────────────────────────────────────────────────────────

theorem lazyGo_skip (cl0 : Char) (cl' : Str) (cont : Str → Option α) (s : Str)
    (h : ∀ c ∈ s, c ≠ cl0) :
    ∀ accRev rem, lazyGroupGo (cl0 :: cl') cont accRev (s ++ rem) =
      lazyGroupGo (cl0 :: cl') cont (s.reverse ++ accRev) rem := by
  induction s with
  | nil => intro accRev rem; simp
  | cons c t ih =>
    intro accRev rem
    have hc : (cl0 == c) = false := beq_eq_false_iff_ne.mpr (Ne.symm (h c (by simp)))
    have ht : ∀ x ∈ t, x ≠ cl0 := fun x hx => h x (by simp [hx])
    show lazyGroupGo _ cont accRev (c :: (t ++ rem)) = _
    rw [lazyGroupGo, tryClose]
    simp only [List.isPrefixOf_cons₂, hc, Bool.false_and, if_neg Bool.false_ne_true]
    rw [ih ht]
    simp

theorem lazyGo_hit (close : Str) (cont : Str → Option α) (accRev rem : Str) (a : α)
    (hne : close ≠ []) (hc : cont rem = some a) :
    lazyGroupGo close cont accRev (close ++ rem) = some (accRev.reverse, a) := by
  cases close with
  | nil => exact absurd rfl hne
  | cons cl0 cl' =>
    have hpre : (cl0 :: cl').isPrefixOf (cl0 :: (cl' ++ rem)) = true := by
      have h := isPrefixOf_self_append (cl0 :: cl') rem
      rwa [List.cons_append] at h
    have hdrop : (cl0 :: (cl' ++ rem)).drop (cl0 :: cl').length = rem := by
      have h := List.drop_left (cl0 :: cl') rem
      rwa [List.cons_append] at h
    show lazyGroupGo _ cont accRev (cl0 :: (cl' ++ rem)) = _
    rw [lazyGroupGo, tryClose, if_pos hpre, hdrop, hc]

theorem lazyGo_none (cl0 : Char) (cl' : Str) (cont : Str → Option α) :
    ∀ (s accRev : Str), (∀ c ∈ s, c ≠ cl0) → lazyGroupGo (cl0 :: cl') cont accRev s = none := by
  intro s
  induction s with
  | nil => intro accRev _; rw [lazyGroupGo, tryClose]; simp
  | cons c t ih =>
    intro accRev h
    have hc : (cl0 == c) = false := beq_eq_false_iff_ne.mpr (Ne.symm (h c (by simp)))
    rw [lazyGroupGo, tryClose]
    simp only [List.isPrefixOf_cons₂, hc, Bool.false_and, if_neg Bool.false_ne_true]
    exact ih (c :: accRev) (fun x hx => h x (by simp [hx]))

theorem isEmpty_false_of_ne (s : Str) (h : s ≠ []) : s.isEmpty = false := by
  cases s with
  | nil => exact absurd rfl h
  | cons a t => rfl

theorem labelCont_space (L : Str) (hne : L ≠ [])
    (hh : ∀ c, L.head? = some c → pyIsSpace c = false) :
    labelCont (' ' :: L) = some L := by
  have hd : (' ' :: L).dropWhile pyIsSpace = L := by
    rw [List.dropWhile_cons, if_pos (by decide)]
    exact dropWhile_eq_self_of_head _ _ hh
  rw [labelCont, if_pos (by decide : pyIsSpace ' ' = true)]
  simp only [hd, isEmpty_false_of_ne L hne]
  rw [if_neg (by simp)]

theorem lazyGroup_id_label (cl0 : Char) (cl' : Str) (i L : Str)
    (hi : i ≠ []) (hfree : ∀ c ∈ i, c ≠ cl0)
    (hne : L ≠ []) (hh : ∀ c, L.head? = some c → pyIsSpace c = false) :
    lazyGroup (cl0 :: cl') labelCont (i ++ ((cl0 :: cl') ++ (' ' :: L))) = some (i, L) := by
  cases i with
  | nil => exact absurd rfl hi
  | cons c t =>
    rw [List.cons_append, lazyGroup]
    rw [lazyGo_skip cl0 cl' labelCont t (fun x hx => hfree x (by simp [hx]))]
    rw [lazyGo_hit _ _ _ _ L (by simp) (labelCont_space L hne hh)]
    simp

theorem matchNodeWith_hit (opn : Str) (cl0 : Char) (cl' : Str) (i L : Str)
    (hi : i ≠ []) (hfree : ∀ c ∈ i, c ≠ cl0)
    (hne : L ≠ []) (hh : ∀ c, L.head? = some c → pyIsSpace c = false) :
    matchNodeWith opn (cl0 :: cl') (opn ++ (i ++ ((cl0 :: cl') ++ (' ' :: L)))) =
      some (i, L) := by
  unfold matchNodeWith
  rw [if_pos (isPrefixOf_self_append opn _), List.drop_left]
  exact lazyGroup_id_label cl0 cl' i L hi hfree hne hh

theorem matchNodeWith_head_none (opn1 : Char) (opn' : Str) (cls : Str) (c : Char)
    (X : Str) (h : (opn1 == c) = false) :
    matchNodeWith (opn1 :: opn') cls (c :: X) = none := by
  unfold matchNodeWith
  rw [if_neg (by simp [List.isPrefixOf_cons₂, h])]

theorem matchNodeWith_second_none (opn1 opn2 : Char) (cls : Str) (c d : Char)
    (X : Str) (h : (opn2 == d) = false) :
    matchNodeWith (opn1 :: (opn2 :: [])) cls (c :: (d :: X)) = none := by
  unfold matchNodeWith
  rw [if_neg (by simp [List.isPrefixOf_cons₂, h])]

theorem lit_rb : lit "]" = [']'] := rfl

theorem tryClose_rb (cont : Str → Option α) (rest : Str) :
    tryClose (lit "]") cont (']' :: rest) = cont rest := by
  rw [tryClose, lit_rb]
  simp [List.isPrefixOf_cons₂]

theorem lazyGroup_rb_none (cont : Str → Option α) (s : Str) (h : ∀ c ∈ s, c ≠ ']') :
    lazyGroup (lit "]") cont s = none := by
  cases s with
  | nil => rfl
  | cons c t =>
    rw [lazyGroup]
    exact lazyGo_none ']' [] cont t [c] (fun x hx => h x (by simp [hx]))

theorem edgeTarget_none (t : Str) (h : ∀ c ∈ t, c ≠ ']') : edgeTarget t = none := by
  cases t with
  | nil => rfl
  | cons c rest =>
    by_cases hc : c = '['
    · subst hc
      rw [edgeTarget, if_pos rfl]
      exact lazyGroup_rb_none _ rest (fun x hx => h x (by simp [hx]))
    · rw [edgeTarget, if_neg hc]

theorem afterG1_none (t : Str) (h : ∀ c ∈ t, c ≠ ']') : afterG1 t = none := by
  have hsl : List.Sublist (t.dropWhile pyIsSpace) t := List.dropWhile_sublist _
  have hsub : ∀ c ∈ t.dropWhile pyIsSpace, c ≠ ']' :=
    fun c hc => h c (hsl.subset hc)
  unfold afterG1
  split
  · next r2 heq =>
    apply edgeTarget_none
    intro c hc
    have hsl2 : List.Sublist (r2.dropWhile pyIsSpace) r2 := List.dropWhile_sublist _
    have hmem : c ∈ t.dropWhile pyIsSpace := by
      rw [heq]
      have : c ∈ r2 := hsl2.subset hc
      simp [this]
    exact hsub c hmem
  · rfl

theorem afterG1_rb (X : Str) : afterG1 (']' :: X) = none := by
  unfold afterG1
  rw [List.dropWhile_cons, if_neg (by decide)]
  rfl

theorem lazyGo_step_none (close : Str) (cont : Str → Option α) (acc : Str) (c : Char)
    (rest : Str) (h : tryClose close cont (c :: rest) = none) :
    lazyGroupGo close cont acc (c :: rest) = lazyGroupGo close cont (c :: acc) rest := by
  rw [lazyGroupGo, h]

theorem lazyGroup_rb_after_one (i L : Str) (hi : i ≠ []) (hif : ∀ c ∈ i, c ≠ ']')
    (hL : ∀ c ∈ L, c ≠ ']') :
    lazyGroup (lit "]") afterG1 (i ++ (']' :: (' ' :: L))) = none := by
  have hsp : ∀ c ∈ (' ' :: L), c ≠ ']' := by
    intro c hc
    rcases List.mem_cons.mp hc with rfl | hm
    · decide
    · exact hL c hm
  cases i with
  | nil => exact absurd rfl hi
  | cons c t =>
    rw [List.cons_append, lazyGroup, lit_rb]
    rw [lazyGo_skip ']' [] afterG1 t (fun x hx => hif x (by simp [hx]))]
    rw [lazyGo_step_none _ _ _ _ _ (by rw [← lit_rb, tryClose_rb]; exact afterG1_none _ hsp)]
    exact lazyGo_none ']' [] afterG1 (' ' :: L) _ hsp

theorem lazyGroup_rb_after_two (i L : Str) (hi : i ≠ []) (hif : ∀ c ∈ i, c ≠ ']')
    (hL : ∀ c ∈ L, c ≠ ']') :
    lazyGroup (lit "]") afterG1 (i ++ (']' :: (']' :: (' ' :: L)))) = none := by
  have hsp : ∀ c ∈ (' ' :: L), c ≠ ']' := by
    intro c hc
    rcases List.mem_cons.mp hc with rfl | hm
    · decide
    · exact hL c hm
  cases i with
  | nil => exact absurd rfl hi
  | cons c t =>
    rw [List.cons_append, lazyGroup, lit_rb]
    rw [lazyGo_skip ']' [] afterG1 t (fun x hx => hif x (by simp [hx]))]
    rw [lazyGo_step_none _ _ _ _ _ (by rw [← lit_rb, tryClose_rb]; exact afterG1_rb _)]
    rw [lazyGo_step_none _ _ _ _ _ (by rw [← lit_rb, tryClose_rb]; exact afterG1_none _ hsp)]
    exact lazyGo_none ']' [] afterG1 (' ' :: L) _ hsp

theorem matchEdge_nonlb (c : Char) (X : Str) (h : ¬ c = '[') : matchEdge (c :: X) = none := by
  rw [matchEdge, if_neg h]

theorem matchEdge_input_line (i L : Str) (hif : ∀ c ∈ i, c ≠ ']')
    (hL : ∀ c ∈ L, c ≠ ']') :
    matchEdge ('[' :: ('[' :: (i ++ (']' :: (']' :: (' ' :: L)))))) = none := by
  rw [matchEdge, if_pos rfl]
  have h : lazyGroup (lit "]") afterG1 ('[' :: (i ++ (']' :: (']' :: (' ' :: L))))) = none := by
    have hshape : '[' :: (i ++ (']' :: (']' :: (' ' :: L)))) =
        ('[' :: i) ++ (']' :: (']' :: (' ' :: L))) := by simp
    rw [hshape]
    refine lazyGroup_rb_after_two ('[' :: i) L (by simp) ?_ hL
    intro c hc
    rcases List.mem_cons.mp hc with rfl | hm
    · decide
    · exact hif c hm
  rw [h]
  rfl

theorem matchEdge_default_line (i L : Str) (hi : i ≠ []) (hif : ∀ c ∈ i, c ≠ ']')
    (hL : ∀ c ∈ L, c ≠ ']') :
    matchEdge ('[' :: (i ++ (']' :: (' ' :: L)))) = none := by
  rw [matchEdge, if_pos rfl]
  rw [lazyGroup_rb_after_one i L hi hif hL]
  rfl

theorem optLabelPart_nil : optLabelPart [] = some none := rfl

theorem optLabelPart_label (l : Str) (hne : l ≠ [])
    (hh : ∀ c, l.head? = some c → pyIsSpace c = false) :
    optLabelPart (' ' :: (':' :: (' ' :: l))) = some (some l) := by
  have hd : (' ' :: (':' :: (' ' :: l))).dropWhile pyIsSpace = ':' :: (' ' :: l) := by
    rw [List.dropWhile_cons, if_pos (by decide), List.dropWhile_cons, if_neg (by decide)]
  have hd2 : (' ' :: l).dropWhile pyIsSpace = l := by
    rw [List.dropWhile_cons, if_pos (by decide)]
    exact dropWhile_eq_self_of_head _ _ hh
  unfold optLabelPart
  rw [if_neg (by simp), hd]
  simp [hd2, isEmpty_false_of_ne l hne]

theorem afterG1_eq_arrow (pre r2 : Str) (hpre : pre.dropWhile pyIsSpace = '-' :: ('>' :: r2)) :
    afterG1 pre = edgeTarget (r2.dropWhile pyIsSpace) := by
  unfold afterG1
  rw [hpre]
  rfl

theorem afterG1_arrow (tgt TAIL : Str) (olbl : Option Str)
    (ht : tgt ≠ []) (htf : ∀ c ∈ tgt, c ≠ ']')
    (hopt : optLabelPart TAIL = some olbl) :
    afterG1 (' ' :: ('-' :: ('>' :: (' ' :: ('[' :: (tgt ++ (']' :: TAIL))))))) =
      some (tgt, olbl) := by
  rw [afterG1_eq_arrow _ (' ' :: ('[' :: (tgt ++ (']' :: TAIL))))
    (by rw [List.dropWhile_cons, if_pos (by decide), List.dropWhile_cons, if_neg (by decide)])]
  rw [List.dropWhile_cons, if_pos (by decide), List.dropWhile_cons, if_neg (by decide)]
  rw [edgeTarget, if_pos rfl]
  cases tgt with
  | nil => exact absurd rfl ht
  | cons d u =>
    rw [List.cons_append, lazyGroup, lit_rb]
    rw [lazyGo_skip ']' [] optLabelPart u (fun x hx => htf x (by simp [hx]))]
    rw [show (']' : Char) :: TAIL = [']'] ++ TAIL from rfl]
    rw [lazyGo_hit [']'] optLabelPart _ TAIL olbl (by simp) hopt]
    simp

theorem matchEdge_serialized_shape (src tgt TAIL : Str) (olbl : Option Str)
    (hs : src ≠ []) (hsf : ∀ c ∈ src, c ≠ ']')
    (ht : tgt ≠ []) (htf : ∀ c ∈ tgt, c ≠ ']')
    (hopt : optLabelPart TAIL = some olbl) :
    matchEdge ('[' :: (src ++ (']' :: (' ' :: ('-' :: ('>' :: (' ' :: ('[' ::
      (tgt ++ (']' :: TAIL)))))))))) = some (src, tgt, olbl) := by
  rw [matchEdge, if_pos rfl]
  cases src with
  | nil => exact absurd rfl hs
  | cons c t =>
    rw [List.cons_append, lazyGroup, lit_rb]
    rw [lazyGo_skip ']' [] afterG1 t (fun x hx => hsf x (by simp [hx]))]
    rw [show (']' : Char) :: (' ' :: ('-' :: ('>' :: (' ' :: ('[' :: (tgt ++ (']' :: TAIL))))))) =
      [']'] ++ (' ' :: ('-' :: ('>' :: (' ' :: ('[' :: (tgt ++ (']' :: TAIL))))))) from rfl]
    rw [lazyGo_hit [']'] afterG1 _ _ (tgt, olbl) (by simp)
      (afterG1_arrow tgt TAIL olbl ht htf hopt)]
    simp

theorem lit_llb : lit "[[" = ['[', '['] := rfl
theorem lit_rrb : lit "]]" = [']', ']'] := rfl
theorem lit_oo : lit "((" = ['(', '('] := rfl
theorem lit_cc : lit "))" = [')', ')'] := rfl
theorem lit_ocb : lit "\x7b" = ['\x7b'] := rfl
theorem lit_ccb : lit "\x7d" = ['\x7d'] := rfl
theorem lit_lb : lit "[" = ['['] := rfl

theorem matchNode_input (i L : Str) (hi : idOk i = true) (hL : labelOk L = true) :
    matchNode ('[' :: ('[' :: (i ++ (']' :: (']' :: (' ' :: L)))))) =
      some (i, L, lit "input") := by
  obtain ⟨hine, hic⟩ := idOk_facts i hi
  obtain ⟨hlc, hlne, hlh, _⟩ := labelOk_facts L hL
  have h1 : matchNodeWith (lit "[[") (lit "]]")
      ('[' :: ('[' :: (i ++ (']' :: (']' :: (' ' :: L)))))) = some (i, L) := by
    have hshape : '[' :: ('[' :: (i ++ (']' :: (']' :: (' ' :: L))))) =
        lit "[[" ++ (i ++ ((']' :: [']']) ++ (' ' :: L))) := by rw [lit_llb]; simp
    rw [hshape, lit_rrb]
    exact matchNodeWith_hit _ ']' [']'] i L hine
      (fun c hc => (idChar_not_special c (hic c hc)).2.1) hlne hlh
  rw [matchNode, h1]

theorem matchNode_output (i L : Str) (hi : idOk i = true) (hL : labelOk L = true) :
    matchNode ('(' :: ('(' :: (i ++ (')' :: (')' :: (' ' :: L)))))) =
      some (i, L, lit "output") := by
  obtain ⟨hine, hic⟩ := idOk_facts i hi
  obtain ⟨hlc, hlne, hlh, _⟩ := labelOk_facts L hL
  have h0 : matchNodeWith (lit "[[") (lit "]]")
      ('(' :: ('(' :: (i ++ (')' :: (')' :: (' ' :: L)))))) = none := by
    rw [lit_llb]
    exact matchNodeWith_head_none '[' ['['] _ '(' _ (by decide)
  have h1 : matchNodeWith (lit "((") (lit "))")
      ('(' :: ('(' :: (i ++ (')' :: (')' :: (' ' :: L)))))) = some (i, L) := by
    have hshape : '(' :: ('(' :: (i ++ (')' :: (')' :: (' ' :: L))))) =
        lit "((" ++ (i ++ ((')' :: [')']) ++ (' ' :: L))) := by rw [lit_oo]; simp
    rw [hshape, lit_cc]
    exact matchNodeWith_hit _ ')' [')'] i L hine
      (fun c hc => (idChar_not_special c (hic c hc)).2.2.2.1) hlne hlh
  rw [matchNode, h0, h1]

theorem matchNode_selector (i L : Str) (hi : idOk i = true) (hL : labelOk L = true) :
    matchNode ('\x7b' :: (i ++ ('\x7d' :: (' ' :: L)))) =
      some (i, L, lit "selector") := by
  obtain ⟨hine, hic⟩ := idOk_facts i hi
  obtain ⟨hlc, hlne, hlh, _⟩ := labelOk_facts L hL
  have h0 : matchNodeWith (lit "[[") (lit "]]")
      ('\x7b' :: (i ++ ('\x7d' :: (' ' :: L)))) = none := by
    rw [lit_llb]
    exact matchNodeWith_head_none '[' ['['] _ '\x7b' _ (by decide)
  have h1 : matchNodeWith (lit "((") (lit "))")
      ('\x7b' :: (i ++ ('\x7d' :: (' ' :: L)))) = none := by
    rw [lit_oo]
    exact matchNodeWith_head_none '(' ['('] _ '\x7b' _ (by decide)
  have h2 : matchNodeWith (lit "\x7b") (lit "\x7d")
      ('\x7b' :: (i ++ ('\x7d' :: (' ' :: L)))) = some (i, L) := by
    have hshape : '\x7b' :: (i ++ ('\x7d' :: (' ' :: L))) =
        lit "\x7b" ++ (i ++ (('\x7d' :: []) ++ (' ' :: L))) := by rw [lit_ocb]; simp
    rw [hshape, lit_ccb]
    exact matchNodeWith_hit _ '\x7d' [] i L hine
      (fun c hc => (idChar_not_special c (hic c hc)).2.2.2.2.2.1) hlne hlh
  rw [matchNode, h0, h1, h2]

theorem matchNode_default (i L : Str) (hi : idOk i = true) (hL : labelOk L = true) :
    matchNode ('[' :: (i ++ (']' :: (' ' :: L)))) = some (i, L, defaultType) := by
  obtain ⟨hine, hic⟩ := idOk_facts i hi
  obtain ⟨hlc, hlne, hlh, _⟩ := labelOk_facts L hL
  have h0 : matchNodeWith (lit "[[") (lit "]]") ('[' :: (i ++ (']' :: (' ' :: L)))) = none := by
    cases i with
    | nil => exact absurd rfl hine
    | cons c t =>
      rw [List.cons_append, lit_llb]
      exact matchNodeWith_second_none '[' '[' _ '[' c _
        (beq_eq_false_iff_ne.mpr (Ne.symm (idChar_not_special c (hic c (by simp))).1))
  have h1 : matchNodeWith (lit "((") (lit "))") ('[' :: (i ++ (']' :: (' ' :: L)))) = none := by
    rw [lit_oo]
    exact matchNodeWith_head_none '(' ['('] _ '[' _ (by decide)
  have h2 : matchNodeWith (lit "\x7b") (lit "\x7d")
      ('[' :: (i ++ (']' :: (' ' :: L)))) = none := by
    rw [lit_ocb]
    exact matchNodeWith_head_none '\x7b' [] _ '[' _ (by decide)
  have h3 : matchNodeWith (lit "[") (lit "]") ('[' :: (i ++ (']' :: (' ' :: L)))) =
      some (i, L) := by
    have hshape : '[' :: (i ++ (']' :: (' ' :: L))) =
        lit "[" ++ (i ++ ((']' :: []) ++ (' ' :: L))) := by rw [lit_lb]; simp
    rw [hshape]
    rw [show lit "]" = ']' :: [] from rfl]
    exact matchNodeWith_hit _ ']' [] i L hine
      (fun c hc => (idChar_not_special c (hic c hc)).2.1) hlne hlh
  rw [matchNode, h0, h1, h2, h3]

theorem pyStrip_fix_shape (A L : Str) (hA : A ≠ [])
    (hhead : ∀ c, A.head? = some c → pyIsSpace c = false)
    (hL : L ≠ []) (hlast : ∀ c, L.getLast? = some c → pyIsSpace c = false) :
    pyStrip (A ++ L) = A ++ L := by
  apply pyStrip_fix
  · intro c hc
    cases A with
    | nil => exact absurd rfl hA
    | cons a t =>
      apply hhead
      simpa using hc
  · intro c hc
    rw [List.getLast?_append_of_ne_nil A hL] at hc
    exact hlast c hc

/-- The serialised line of a well-formed node strips to itself, is
nonempty, is not an edge line, and parses back to the node's triple. -/
theorem serline_facts (n : Node) (h : wfNode n = true) :
    pyStrip (serializeNode n) = serializeNode n ∧
    (serializeNode n).isEmpty = false ∧
    matchEdge (serializeNode n) = none ∧
    matchNode (serializeNode n) = some (n.id, n.label, n.type) := by
  have hw := h
  simp only [wfNode, Bool.and_eq_true] at hw
  obtain ⟨⟨hid, hlab⟩, htyp⟩ := hw
  obtain ⟨hine, hic⟩ := idOk_facts n.id hid
  obtain ⟨hlc, hlne, hlh, hll⟩ := labelOk_facts n.label hlab
  have hidrb : ∀ c ∈ n.id, c ≠ ']' :=
    fun c hc => (idChar_not_special c (hic c hc)).2.1
  have hlabrb : ∀ c ∈ n.label, c ≠ ']' :=
    fun c hc => (labelChar_facts c (hlc c hc)).2.2
  have htyp4 : n.type = lit "default" ∨ n.type = lit "input" ∨
      n.type = lit "output" ∨ n.type = lit "selector" := by
    simp only [typeOk, Bool.or_eq_true, decide_eq_true_eq] at htyp
    tauto
  rcases htyp4 with ht | ht | ht | ht
  · -- default
    have hser : serializeNode n = '[' :: (n.id ++ (']' :: (' ' :: n.label))) := by
      unfold serializeNode
      rw [ht, if_neg (by decide), if_neg (by decide), if_neg (by decide)]
    rw [hser]
    refine ⟨?_, by simp, matchEdge_default_line _ _ hine hidrb hlabrb, ?_⟩
    · have hshape : '[' :: (n.id ++ (']' :: (' ' :: n.label))) =
          ('[' :: (n.id ++ [']', ' '])) ++ n.label := by simp
      rw [hshape]
      exact pyStrip_fix_shape _ _ (by simp) (by intro c hc; simp at hc; subst hc; decide)
        hlne hll
    · rw [ht]
      exact matchNode_default n.id n.label hid hlab
  · -- input
    have hser : serializeNode n =
        '[' :: ('[' :: (n.id ++ (']' :: (']' :: (' ' :: n.label))))) := by
      unfold serializeNode
      rw [ht, if_pos rfl]
    rw [hser]
    refine ⟨?_, by simp, matchEdge_input_line _ _ hidrb hlabrb, ?_⟩
    · have hshape : '[' :: ('[' :: (n.id ++ (']' :: (']' :: (' ' :: n.label))))) =
          ('[' :: ('[' :: (n.id ++ [']', ']', ' ']))) ++ n.label := by simp
      rw [hshape]
      exact pyStrip_fix_shape _ _ (by simp) (by intro c hc; simp at hc; subst hc; decide)
        hlne hll
    · rw [ht]
      exact matchNode_input n.id n.label hid hlab
  · -- output
    have hser : serializeNode n =
        '(' :: ('(' :: (n.id ++ (')' :: (')' :: (' ' :: n.label))))) := by
      unfold serializeNode
      rw [ht, if_neg (by decide), if_pos rfl]
    rw [hser]
    refine ⟨?_, by simp, matchEdge_nonlb _ _ (by decide), ?_⟩
    · have hshape : '(' :: ('(' :: (n.id ++ (')' :: (')' :: (' ' :: n.label))))) =
          ('(' :: ('(' :: (n.id ++ [')', ')', ' ']))) ++ n.label := by simp
      rw [hshape]
      exact pyStrip_fix_shape _ _ (by simp) (by intro c hc; simp at hc; subst hc; decide)
        hlne hll
    · rw [ht]
      exact matchNode_output n.id n.label hid hlab
  · -- selector
    have hser : serializeNode n = '\x7b' :: (n.id ++ ('\x7d' :: (' ' :: n.label))) := by
      unfold serializeNode
      rw [ht, if_neg (by decide), if_neg (by decide), if_pos rfl]
    rw [hser]
    refine ⟨?_, by simp, matchEdge_nonlb _ _ (by decide), ?_⟩
    · have hshape : '\x7b' :: (n.id ++ ('\x7d' :: (' ' :: n.label))) =
          ('\x7b' :: (n.id ++ ['\x7d', ' '])) ++ n.label := by simp
      rw [hshape]
      exact pyStrip_fix_shape _ _ (by simp) (by intro c hc; simp at hc; subst hc; decide)
        hlne hll
    · rw [ht]
      exact matchNode_selector n.id n.label hid hlab

theorem parseLine_blank (st : PState) : parseLine st [] = st := rfl

theorem parseLine_node (st : PState) (n : Node) (h : wfNode n = true) :
    parseLine st (serializeNode n) =
      if n.id ∈ st.seen then st
      else { st with nodes := st.nodes ++ [n], seen := st.seen ++ [n.id] } := by
  obtain ⟨hstrip, hne, hedge, hnode⟩ := serline_facts n h
  simp only [parseLine, hstrip, hne, Bool.false_eq_true, if_false, hedge, hnode]

/-- The serialised line of a well-formed edge strips to itself, is
nonempty, and matches `_EDGE_RE` with exactly its triple. -/
theorem edgeline_facts (e : Edge) (hs : idOk e.source = true) (ht : idOk e.target = true)
    (hl : labelOptOk e.label = true) :
    pyStrip (serializeEdge e) = serializeEdge e ∧
    (serializeEdge e).isEmpty = false ∧
    matchEdge (serializeEdge e) = some (e.source, e.target, e.label) ∧
    (e.label).map pyStrip = e.label := by
  obtain ⟨hsne, hsc⟩ := idOk_facts _ hs
  obtain ⟨htne, htc⟩ := idOk_facts _ ht
  have hsrb : ∀ c ∈ e.source, c ≠ ']' :=
    fun c hc => (idChar_not_special c (hsc c hc)).2.1
  have htrb : ∀ c ∈ e.target, c ≠ ']' :=
    fun c hc => (idChar_not_special c (htc c hc)).2.1
  cases hcl : e.label with
  | none =>
    have hser : serializeEdge e = '[' :: (e.source ++ (']' :: (' ' :: ('-' :: ('>' ::
        (' ' :: ('[' :: (e.target ++ (']' :: []))))))))) := by
      unfold serializeEdge
      rw [hcl]
    rw [hser]
    refine ⟨?_, by simp, ?_, by rfl⟩
    · have hshape : '[' :: (e.source ++ (']' :: (' ' :: ('-' :: ('>' ::
          (' ' :: ('[' :: (e.target ++ (']' :: []))))))))) =
          ('[' :: (e.source ++ (']' :: (' ' :: ('-' :: ('>' :: (' ' :: ('[' :: e.target)))))))) ++ [']'] := by
        simp
      rw [hshape]
      exact pyStrip_fix_shape _ _ (by simp) (by intro c hc; simp at hc; subst hc; decide)
        (by simp) (by intro c hc; simp at hc; subst hc; decide)
    · exact matchEdge_serialized_shape e.source e.target [] none hsne hsrb htne htrb
        optLabelPart_nil
  | some l =>
    have hlok : labelOk l = true := by
      rw [hcl] at hl
      exact hl
    obtain ⟨hlc, hlne, hlh, hll⟩ := labelOk_facts l hlok
    have hser : serializeEdge e = '[' :: (e.source ++ (']' :: (' ' :: ('-' :: ('>' ::
        (' ' :: ('[' :: (e.target ++ (']' :: (' ' :: (':' :: (' ' :: l)))))))))))) := by
      unfold serializeEdge
      rw [hcl]
      simp [isEmpty_false_of_ne l hlne]
    rw [hser]
    refine ⟨?_, by simp, ?_, ?_⟩
    · have hshape : '[' :: (e.source ++ (']' :: (' ' :: ('-' :: ('>' ::
          (' ' :: ('[' :: (e.target ++ (']' :: (' ' :: (':' :: (' ' :: l)))))))))))) =
          ('[' :: (e.source ++ (']' :: (' ' :: ('-' :: ('>' ::
            (' ' :: ('[' :: (e.target ++ [']', ' ', ':', ' ']))))))))) ++ l := by
        simp
      rw [hshape]
      exact pyStrip_fix_shape _ _ (by simp) (by intro c hc; simp at hc; subst hc; decide)
        hlne hll
    · exact matchEdge_serialized_shape e.source e.target (' ' :: (':' :: (' ' :: l)))
        (some l) hsne hsrb htne htrb (optLabelPart_label l hlne hlh)
    · simp [pyStrip_fix l hlh hll]

theorem parseLine_edge (st : PState) (e : Edge) (hs : idOk e.source = true)
    (ht : idOk e.target = true) (hl : labelOptOk e.label = true)
    (hs2 : e.source ∈ st.seen) (ht2 : e.target ∈ st.seen) :
    parseLine st (serializeEdge e) =
      { st with
        edges := st.edges ++ [Edge.mk (edgeId st.edgeN e.source e.target) e.source e.target e.label]
        edgeN := st.edgeN + 1 } := by
  obtain ⟨hstrip, hne, hmatch, hmap⟩ := edgeline_facts e hs ht hl
  have h1 : insertUnseen st e.source = st := by rw [insertUnseen, if_pos hs2]
  have h2 : insertUnseen st e.target = st := by rw [insertUnseen, if_pos ht2]
  simp only [parseLine, hstrip, hne, Bool.false_eq_true, if_false, hmatch, h1, h2, hmap]

theorem foldl_node_lines (ns : List Node) : ∀ st : PState,
    (∀ n ∈ ns, wfNode n = true) →
    (∀ n ∈ ns, n.id ∉ st.seen) →
    (ns.map Node.id).Nodup →
    (ns.map serializeNode).foldl parseLine st =
      { st with nodes := st.nodes ++ ns, seen := st.seen ++ ns.map Node.id } := by
  induction ns with
  | nil => intro st _ _ _; simp
  | cons n rest ih =>
    intro st hwf hfresh hnd
    have hnd' : (∀ x ∈ rest, ¬x.id = n.id) ∧ (List.map Node.id rest).Nodup := by
      simpa using hnd
    simp only [List.map_cons, List.foldl_cons]
    rw [parseLine_node st n (hwf n (by simp)), if_neg (hfresh n (by simp))]
    rw [ih _ (fun m hm => hwf m (by simp [hm])) ?_ hnd'.2]
    · simp
    · intro m hm
      simp only [List.mem_append, List.mem_singleton]
      rintro (hmem | heq)
      · exact hfresh m (by simp [hm]) hmem
      · exact (hnd'.1 m hm) heq

theorem foldl_edge_lines (es : List Edge) : ∀ st : PState,
    (∀ e ∈ es, idOk e.source = true ∧ idOk e.target = true ∧ labelOptOk e.label = true) →
    (∀ e ∈ es, e.source ∈ st.seen ∧ e.target ∈ st.seen) →
    (es.map serializeEdge).foldl parseLine st =
      { st with edges := st.edges ++ reIndex st.edgeN es, edgeN := st.edgeN + es.length } := by
  induction es with
  | nil => intro st _ _; simp [reIndex]
  | cons e rest ih =>
    intro st hwf hseen
    obtain ⟨h1, h2, h3⟩ := hwf e (by simp)
    obtain ⟨h4, h5⟩ := hseen e (by simp)
    simp only [List.map_cons, List.foldl_cons]
    rw [parseLine_edge st e h1 h2 h3 h4 h5]
    rw [ih { st with
        edges := st.edges ++ [Edge.mk (edgeId st.edgeN e.source e.target) e.source e.target e.label]
        edgeN := st.edgeN + 1 }
      (fun x hx => hwf x (by simp [hx]))
      (fun x hx => hseen x (by simp [hx]))]
    simp only [reIndex]
    simp [List.append_assoc]
    omega

theorem joinSep_cons (sep : Str) (l : Str) (ls : List Str) (h : ls ≠ []) :
    joinSep sep (l :: ls) = l ++ sep ++ joinSep sep ls := by
  cases ls with
  | nil => exact absurd rfl h
  | cons a t => rfl

theorem splitGo_append (l : Str) (h : ∀ c ∈ l, isLineBreak c = false) :
    ∀ accRev rest, pySplitlinesGo false accRev (l ++ rest) =
      pySplitlinesGo false (l.reverse ++ accRev) rest := by
  induction l with
  | nil => intro a r; simp
  | cons c t ih =>
    intro a r
    have hc := h c (by simp)
    have hcr : ¬ c = '\r' := by
      intro he
      subst he
      simp [isLineBreak] at hc
    rw [List.cons_append, pySplitlinesGo]
    rw [if_neg (by simp), if_neg hcr, if_neg (by simp [hc])]
    rw [ih (fun x hx => h x (by simp [hx])) (c :: a) r]
    simp

theorem splitGo_newline (accRev rest : Str) :
    pySplitlinesGo false accRev ('\n' :: rest) =
      accRev.reverse :: pySplitlinesGo false [] rest := by
  rw [pySplitlinesGo]
  rw [if_neg (by simp), if_neg (by decide), if_pos (by decide)]

theorem pySplitlines_unlines : ∀ ls : List Str, ls ≠ [] →
    (∀ l ∈ ls, ∀ c ∈ l, isLineBreak c = false) →
    pySplitlines (joinSep ['\n'] ls ++ ['\n']) = ls := by
  intro ls
  induction ls with
  | nil => intro h _; exact absurd rfl h
  | cons l rest ih =>
    intro _ h
    cases rest with
    | nil =>
      show pySplitlinesGo false [] (l ++ ['\n']) = [l]
      rw [splitGo_append l (h l (by simp)) [] ['\n'], splitGo_newline]
      simp [pySplitlinesGo]
    | cons l2 rest2 =>
      show pySplitlinesGo false [] (joinSep ['\n'] (l :: (l2 :: rest2)) ++ ['\n']) = _
      rw [joinSep_cons _ _ _ (by simp)]
      have hshape : (l ++ ['\n'] ++ joinSep ['\n'] (l2 :: rest2)) ++ ['\n'] =
          l ++ ('\n' :: (joinSep ['\n'] (l2 :: rest2) ++ ['\n'])) := by simp
      rw [hshape, splitGo_append l (h l (by simp)), splitGo_newline]
      have hrec := ih (by simp) (fun x hx => h x (by simp [hx]))
      rw [show pySplitlines (joinSep ['\n'] (l2 :: rest2) ++ ['\n']) =
        pySplitlinesGo false [] (joinSep ['\n'] (l2 :: rest2) ++ ['\n']) from rfl] at hrec
      rw [hrec]
      simp

/-- Every character of a well-formed node's serialised line is neither a
line break nor a backtick. -/
theorem serializeNode_chars (n : Node) (h : wfNode n = true) :
    (serializeNode n).all (fun c => !isLineBreak c && !(c = tick)) = true := by
  have hw := h
  simp only [wfNode, Bool.and_eq_true] at hw
  obtain ⟨⟨hid, hlab⟩, htyp⟩ := hw
  obtain ⟨_, hic⟩ := idOk_facts n.id hid
  obtain ⟨hlc, _, _, _⟩ := labelOk_facts n.label hlab
  have hidall : n.id.all (fun c => !isLineBreak c && !(c = tick)) = true := by
    rw [List.all_eq_true]
    intro c hc
    simp [idChar_not_break c (hic c hc),
      (idChar_not_special c (hic c hc)).2.2.2.2.2.2]
  have hlaball : n.label.all (fun c => !isLineBreak c && !(c = tick)) = true := by
    rw [List.all_eq_true]
    intro c hc
    simp [(labelChar_facts c (hlc c hc)).1, (labelChar_facts c (hlc c hc)).2.1]
  have htyp4 : n.type = lit "default" ∨ n.type = lit "input" ∨
      n.type = lit "output" ∨ n.type = lit "selector" := by
    simp only [typeOk, Bool.or_eq_true, decide_eq_true_eq] at htyp
    tauto
  rcases htyp4 with ht | ht | ht | ht
  · have hser : serializeNode n = '[' :: (n.id ++ (']' :: (' ' :: n.label))) := by
      unfold serializeNode
      rw [ht, if_neg (by decide), if_neg (by decide), if_neg (by decide)]
    rw [hser]
    simp only [List.all_cons, List.all_append, hidall, hlaball]
    decide
  · have hser : serializeNode n =
        '[' :: ('[' :: (n.id ++ (']' :: (']' :: (' ' :: n.label))))) := by
      unfold serializeNode
      rw [ht, if_pos rfl]
    rw [hser]
    simp only [List.all_cons, List.all_append, hidall, hlaball]
    decide
  · have hser : serializeNode n =
        '(' :: ('(' :: (n.id ++ (')' :: (')' :: (' ' :: n.label))))) := by
      unfold serializeNode
      rw [ht, if_neg (by decide), if_pos rfl]
    rw [hser]
    simp only [List.all_cons, List.all_append, hidall, hlaball]
    decide
  · have hser : serializeNode n = '\x7b' :: (n.id ++ ('\x7d' :: (' ' :: n.label))) := by
      unfold serializeNode
      rw [ht, if_neg (by decide), if_neg (by decide), if_pos rfl]
    rw [hser]
    simp only [List.all_cons, List.all_append, hidall, hlaball]
    decide

/-- Every character of a well-formed edge's serialised line is neither a
line break nor a backtick. -/
theorem serializeEdge_chars (e : Edge) (hs : idOk e.source = true)
    (ht : idOk e.target = true) (hl : labelOptOk e.label = true) :
    (serializeEdge e).all (fun c => !isLineBreak c && !(c = tick)) = true := by
  obtain ⟨_, hsc⟩ := idOk_facts _ hs
  obtain ⟨_, htc⟩ := idOk_facts _ ht
  have hsall : e.source.all (fun c => !isLineBreak c && !(c = tick)) = true := by
    rw [List.all_eq_true]
    intro c hc
    simp [idChar_not_break c (hsc c hc),
      (idChar_not_special c (hsc c hc)).2.2.2.2.2.2]
  have htall : e.target.all (fun c => !isLineBreak c && !(c = tick)) = true := by
    rw [List.all_eq_true]
    intro c hc
    simp [idChar_not_break c (htc c hc),
      (idChar_not_special c (htc c hc)).2.2.2.2.2.2]
  cases hcl : e.label with
  | none =>
    have hser : serializeEdge e = '[' :: (e.source ++ (']' :: (' ' :: ('-' :: ('>' ::
        (' ' :: ('[' :: (e.target ++ (']' :: []))))))))) := by
      unfold serializeEdge
      rw [hcl]
    rw [hser]
    simp only [List.all_cons, List.all_append, hsall, htall]
    decide
  | some l =>
    have hlok : labelOk l = true := by rw [hcl] at hl; exact hl
    obtain ⟨hlc, hlne, _, _⟩ := labelOk_facts l hlok
    have hlall : l.all (fun c => !isLineBreak c && !(c = tick)) = true := by
      rw [List.all_eq_true]
      intro c hc
      simp [(labelChar_facts c (hlc c hc)).1, (labelChar_facts c (hlc c hc)).2.1]
    have hser : serializeEdge e = '[' :: (e.source ++ (']' :: (' ' :: ('-' :: ('>' ::
        (' ' :: ('[' :: (e.target ++ (']' :: (' ' :: (':' :: (' ' :: l)))))))))))) := by
      unfold serializeEdge
      rw [hcl]
      simp [isEmpty_false_of_ne l hlne]
    rw [hser]
    simp only [List.all_cons, List.all_append, hsall, htall, hlall]
    decide

theorem mem_joinSep (sep : Str) : ∀ (ls : List Str) (c : Char), c ∈ joinSep sep ls →
    c ∈ sep ∨ ∃ l ∈ ls, c ∈ l := by
  intro ls
  induction ls with
  | nil => intro c hc; simp [joinSep] at hc
  | cons l rest ih =>
    intro c hc
    cases rest with
    | nil =>
      right
      exact ⟨l, by simp, hc⟩
    | cons l2 rest2 =>
      rw [joinSep_cons _ _ _ (by simp)] at hc
      simp only [List.mem_append] at hc
      rcases hc with (hc | hc) | hc
      · exact Or.inr ⟨l, by simp, hc⟩
      · exact Or.inl hc
      · rcases ih c hc with h | ⟨x, hx, hcx⟩
        · exact Or.inl h
        · exact Or.inr ⟨x, by simp [hx], hcx⟩

theorem takeUntilTicks_clean : ∀ (body : Str), (∀ c ∈ body, c ≠ tick) →
    takeUntilTicks (body ++ lit "```") = some (body, []) := by
  intro body
  induction body with
  | nil => intro _; rfl
  | cons c t ih =>
    intro h
    rw [List.cons_append, takeUntilTicks]
    rw [if_neg (by simp [h c (by simp)])]
    rw [ih (fun x hx => h x (by simp [hx]))]
    rfl

theorem matchFlowOpen_prefix (X : Str) :
    matchFlowOpen (lit "```flow\n" ++ X) = takeUntilTicks X := by
  have hfalse : (lit "```flow\r\n").isPrefixOf (lit "```flow\n" ++ X) = false := rfl
  have h8 : (lit "```flow\n" ++ X).drop 8 = X := List.drop_left (lit "```flow\n") X
  unfold matchFlowOpen
  rw [hfalse]
  simp only [Bool.false_eq_true, if_false]
  rw [if_pos (isPrefixOf_self_append _ _), h8]

theorem findBlocksAux_nil (fuel : Nat) : findBlocksAux fuel [] = [] := by
  cases fuel <;> rfl

theorem findBlocksAux_flow (fuel : Nat) (body : Str) (hb : ∀ c ∈ body, c ≠ tick)
    (hfuel : 0 < fuel) :
    findBlocksAux fuel (lit "```flow\n" ++ (body ++ lit "```")) = [body] := by
  cases fuel with
  | zero => omega
  | succ k =>
    have hlit : lit "```flow\n" = tick :: lit "``flow\n" := rfl
    have hshape : lit "```flow\n" ++ (body ++ lit "```") =
        tick :: (lit "``flow\n" ++ (body ++ lit "```")) := by rw [hlit]; simp
    rw [hshape, findBlocksAux, ← List.cons_append, ← hlit, matchFlowOpen_prefix,
      takeUntilTicks_clean body hb]
    simp [findBlocksAux_nil]

theorem joinSep_append (sep : Str) : ∀ (A B : List Str), A ≠ [] → B ≠ [] →
    joinSep sep (A ++ B) = joinSep sep A ++ sep ++ joinSep sep B := by
  intro A
  induction A with
  | nil => intro B h _; exact absurd rfl h
  | cons a rest ih =>
    intro B _ hB
    cases rest with
    | nil =>
      rw [show ([a] : List Str) ++ B = a :: B from rfl, joinSep_cons _ _ _ hB]
      rfl
    | cons a2 rest2 =>
      rw [show ((a :: (a2 :: rest2)) ++ B) = a :: ((a2 :: rest2) ++ B) from rfl]
      rw [joinSep_cons _ _ _ (by simp), joinSep_cons _ _ _ (by simp)]
      rw [ih B (by simp) hB]
      simp

theorem wfEdge_facts (ns : List Node) (e : Edge) (h : wfEdge ns e = true) :
    idOk e.source = true ∧ idOk e.target = true ∧ labelOptOk e.label = true ∧
    e.source ∈ ns.map Node.id ∧ e.target ∈ ns.map Node.id := by
  simp only [wfEdge, Bool.and_eq_true, decide_eq_true_eq] at h
  tauto

theorem reIndex_triples : ∀ (k : Nat) (es : List Edge),
    (reIndex k es).map edgeTriple = es.map edgeTriple := by
  intro k es
  induction es generalizing k with
  | nil => rfl
  | cons e rest ih => simp [reIndex, edgeTriple, ih]

theorem parseFlow_build (ns : List Node) (es : List Edge) (h : WFGraph ns es) :
    parseFlow (buildFlowBlock ns es) = (ns, reIndex 0 es) := by
  obtain ⟨hALL, hnd, hES⟩ := h
  have hwfn : ∀ n ∈ ns, wfNode n = true := by
    rw [List.all_eq_true] at hALL
    exact hALL
  have hwfe : ∀ e ∈ es, wfEdge ns e = true := by
    rw [List.all_eq_true] at hES
    exact hES
  have hnchars : ∀ l ∈ ns.map serializeNode, ∀ c ∈ l, isLineBreak c = false ∧ c ≠ tick := by
    intro l hl c hc
    obtain ⟨n, hn, rfl⟩ := List.mem_map.mp hl
    have hall := serializeNode_chars n (hwfn n hn)
    rw [List.all_eq_true] at hall
    have h2 := hall c hc
    simp only [Bool.and_eq_true, Bool.not_eq_true', decide_eq_false_iff_not] at h2
    exact h2
  have hechars : ∀ l ∈ es.map serializeEdge, ∀ c ∈ l, isLineBreak c = false ∧ c ≠ tick := by
    intro l hl c hc
    obtain ⟨e, he, rfl⟩ := List.mem_map.mp hl
    obtain ⟨h1, h2, h3, _, _⟩ := wfEdge_facts ns e (hwfe e he)
    have hall := serializeEdge_chars e h1 h2 h3
    rw [List.all_eq_true] at hall
    have h4 := hall c hc
    simp only [Bool.and_eq_true, Bool.not_eq_true', decide_eq_false_iff_not] at h4
    exact h4
  have hn1 : lit "\n" = ['\n'] := rfl
  have hn2 : lit "\n\n" = ['\n', '\n'] := rfl
  have hn3 : lit "\n```" = ['\n'] ++ lit "```" := rfl
  by_cases hes : es = []
  · subst hes
    by_cases hns : ns = []
    · subst hns
      decide
    · -- nodes only
      have hNSne : ns.map serializeNode ≠ [] := by simpa using hns
      have hbuild : buildFlowBlock ns [] = lit "```flow\n" ++
          ((joinSep ['\n'] (ns.map serializeNode) ++ ['\n']) ++ lit "```") := by
        unfold buildFlowBlock
        rw [hn1, hn3]
        simp [joinSep]
      have hbody : ∀ c ∈ joinSep ['\n'] (ns.map serializeNode) ++ ['\n'], c ≠ tick := by
        intro c hc
        rcases List.mem_append.mp hc with hc | hc
        · rcases mem_joinSep _ _ c hc with hs | ⟨l, hl, hcl⟩
          · simp at hs
            subst hs
            decide
          · exact (hnchars l hl c hcl).2
        · simp at hc
          subst hc
          decide
      have hsplit : pySplitlines (joinSep ['\n'] (ns.map serializeNode) ++ ['\n']) =
          ns.map serializeNode :=
        pySplitlines_unlines _ hNSne (fun l hl c hc => (hnchars l hl c hc).1)
      have hfold := foldl_node_lines ns (PState.mk [] [] [] 0) hwfn (by simp) hnd
      have hpos : 0 < (buildFlowBlock ns []).length := by
        rw [hbuild]
        simp
      unfold parseFlow findBlocks
      rw [hbuild]
      rw [findBlocksAux_flow _ _ hbody (by rw [← hbuild]; exact hpos)]
      simp only [List.foldl_cons, List.foldl_nil]
      unfold parseBlock
      rw [hsplit, hfold]
      simp [reIndex]
  · -- edges present
    by_cases hns : ns = []
    · exfalso
      obtain ⟨e, he⟩ := List.exists_mem_of_ne_nil es hes
      obtain ⟨_, _, _, hmem, _⟩ := wfEdge_facts ns e (hwfe e he)
      rw [hns] at hmem
      simp at hmem
    · have hNSne : ns.map serializeNode ≠ [] := by simpa using hns
      have hESne : es.map serializeEdge ≠ [] := by simpa using hes
      have hlines : joinSep ['\n'] ((ns.map serializeNode) ++ ([] :: es.map serializeEdge)) =
          joinSep ['\n'] (ns.map serializeNode) ++ ['\n', '\n'] ++
            joinSep ['\n'] (es.map serializeEdge) := by
        rw [joinSep_append ['\n'] _ _ hNSne (by simp)]
        rw [joinSep_cons _ _ _ hESne]
        simp [joinSep]
      have hbuild : buildFlowBlock ns es = lit "```flow\n" ++
          ((joinSep ['\n'] ((ns.map serializeNode) ++ ([] :: es.map serializeEdge)) ++ ['\n'])
            ++ lit "```") := by
        unfold buildFlowBlock
        rw [hn1, hn3, hlines]
        rw [if_neg (show ¬(es.isEmpty = true) by
          cases es
          · exact absurd rfl hes
          · simp), hn2]
        simp
      have hbody : ∀ c ∈ joinSep ['\n'] ((ns.map serializeNode) ++
          ([] :: es.map serializeEdge)) ++ ['\n'], c ≠ tick := by
        intro c hc
        rcases List.mem_append.mp hc with hc | hc
        · rcases mem_joinSep _ _ c hc with hs | ⟨l, hl, hcl⟩
          · simp at hs
            subst hs
            decide
          · rcases List.mem_append.mp hl with hl2 | hl2
            · exact (hnchars l hl2 c hcl).2
            · rcases List.mem_cons.mp hl2 with rfl | hl3
              · simp at hcl
              · exact (hechars l hl3 c hcl).2
        · simp at hc
          subst hc
          decide
      have hsplit : pySplitlines (joinSep ['\n'] ((ns.map serializeNode) ++
          ([] :: es.map serializeEdge)) ++ ['\n']) =
          (ns.map serializeNode) ++ ([] :: es.map serializeEdge) := by
        apply pySplitlines_unlines _ (by simp [hNSne])
        intro l hl c hc
        rcases List.mem_append.mp hl with hl2 | hl2
        · exact (hnchars l hl2 c hc).1
        · rcases List.mem_cons.mp hl2 with rfl | hl3
          · simp at hc
          · exact (hechars l hl3 c hc).1
      have hfold1 := foldl_node_lines ns (PState.mk [] [] [] 0) hwfn (by simp) hnd
      have hfold2 := foldl_edge_lines es
        (PState.mk ns [] (ns.map Node.id) 0)
        (fun e he => by
          obtain ⟨h1, h2, h3, _, _⟩ := wfEdge_facts ns e (hwfe e he)
          exact ⟨h1, h2, h3⟩)
        (fun e he => by
          obtain ⟨_, _, _, h4, h5⟩ := wfEdge_facts ns e (hwfe e he)
          exact ⟨h4, h5⟩)
      have hpos : 0 < (buildFlowBlock ns es).length := by
        rw [hbuild]
        simp
      unfold parseFlow findBlocks
      rw [hbuild]
      rw [findBlocksAux_flow _ _ hbody (by rw [← hbuild]; exact hpos)]
      simp only [List.foldl_cons, List.foldl_nil]
      unfold parseBlock
      rw [hsplit, List.foldl_append]
      rw [hfold1]
      simp only [List.foldl_cons]
      rw [show parseLine { (PState.mk [] [] [] 0 : PState) with
        nodes := [] ++ ns, seen := [] ++ ns.map Node.id } [] =
        { (PState.mk [] [] [] 0 : PState) with
          nodes := [] ++ ns, seen := [] ++ ns.map Node.id } from rfl]
      simp only [List.nil_append] at hfold2 ⊢
      rw [hfold2]

-- ─────────────────────────────────────────────────────────────
-- Toolkit lemmas
-- ─────────────────────────────────────────────────────────────

theorem nodeIndex_none_iff (nodes : List Node) (nid : Str) :
    nodeIndex nodes nid = none ↔ ∀ n ∈ nodes, n.id ≠ nid := by
  induction nodes with
  | nil => simp [nodeIndex]
  | cons n rest ih =>
    by_cases h : n.id = nid
    · simp [nodeIndex, h]
    · simp [nodeIndex, h, ih]

theorem nodeIndex_some_of_mem (nodes : List Node) (nid : Str)
    (h : nid ∈ nodes.map Node.id) : ∃ idx, nodeIndex nodes nid = some idx := by
  cases hidx : nodeIndex nodes nid with
  | some i => exact ⟨i, rfl⟩
  | none =>
    obtain ⟨n, hn, hid⟩ := List.mem_map.mp h
    exact absurd hid ((nodeIndex_none_iff nodes nid).mp hidx n hn)

theorem eraseIdx_eq_filter (nodes : List Node) (nid : Str)
    (hnd : (nodes.map Node.id).Nodup) (hmem : nid ∈ nodes.map Node.id) :
    ∃ idx, nodeIndex nodes nid = some idx ∧
      nodes.eraseIdx idx = nodes.filter (fun n => decide (n.id ≠ nid)) := by
  induction nodes with
  | nil => simp at hmem
  | cons n rest ih =>
    have hnd' : (∀ x ∈ rest, ¬x.id = n.id) ∧ (rest.map Node.id).Nodup := by
      simpa using hnd
    by_cases h : n.id = nid
    · refine ⟨0, by simp [nodeIndex, h], ?_⟩
      rw [List.eraseIdx_cons_zero]
      rw [List.filter_cons_of_neg (by simp [h])]
      rw [List.filter_eq_self.mpr]
      intro x hx
      simp only [decide_eq_true_eq]
      intro he
      exact (hnd'.1 x hx) (he.trans h.symm)
    · have hmem' : nid ∈ rest.map Node.id := by
        rcases List.mem_map.mp hmem with ⟨m, hm, hid⟩
        rcases List.mem_cons.mp hm with rfl | hm2
        · exact absurd hid h
        · exact hid ▸ List.mem_map_of_mem Node.id hm2
      obtain ⟨idx, hidx, herase⟩ := ih hnd'.2 hmem'
      refine ⟨idx + 1, by simp [nodeIndex, h, hidx], ?_⟩
      rw [List.eraseIdx_cons_succ, herase]
      rw [List.filter_cons_of_pos (by simp [h])]

-- ─────────────────────────────────────────────────────────────
-- Claim theorems
-- ─────────────────────────────────────────────────────────────

/-- C7: `remove_node` cascades: on a graph with distinct node ids,
removing a present id removes exactly that node and every edge touching
it, keeps everything else in order, and reports the number of edges
removed; on the concrete graph `{a,b,c}` with edges `a->b`, `b->c`,
removing `b` leaves `{a,c}` and no edges and reports two connected
edges; an absent id changes nothing and reports "not found". -/
theorem remove_node_cascade :
    (∀ (st : Plugin) (nid : Str), ((st.nodes.map Node.id).Nodup) →
      nid ∈ st.nodes.map Node.id →
      remove_node st nid =
        (Plugin.mk (st.nodes.filter (fun n => decide (n.id ≠ nid)))
          (st.edges.filter (fun e => decide (e.source ≠ nid) && decide (e.target ≠ nid)))
          st.edgeCounter,
         lit "Removed node \x27" ++ nid ++ lit "\x27 and " ++
           natToStr (st.edges.length -
             (st.edges.filter (fun e => decide (e.source ≠ nid) && decide (e.target ≠ nid))).length)
           ++ lit " connected edge(s)."))
    ∧ (remove_node (Plugin.mk
        [Node.mk (lit "a") (lit "A") defaultType, Node.mk (lit "b") (lit "B") defaultType,
         Node.mk (lit "c") (lit "C") defaultType]
        [Edge.mk (lit "e-a-b") (lit "a") (lit "b") none,
         Edge.mk (lit "e-b-c") (lit "b") (lit "c") none] 2) (lit "b") =
        (Plugin.mk [Node.mk (lit "a") (lit "A") defaultType,
          Node.mk (lit "c") (lit "C") defaultType] [] 2,
         lit "Removed node \x27b\x27 and 2 connected edge(s)."))
    ∧ (∀ (st : Plugin) (nid : Str), nid ∉ st.nodes.map Node.id →
      remove_node st nid = (st, lit "Node \x27" ++ nid ++ lit "\x27 not found.")) := by
  refine ⟨?_, by decide, ?_⟩
  · intro st nid hnd hmem
    obtain ⟨idx, hidx, herase⟩ := eraseIdx_eq_filter st.nodes nid hnd hmem
    unfold remove_node
    rw [hidx]
    simp only [herase]
  · intro st nid hmem
    have hnone : nodeIndex st.nodes nid = none := by
      rw [nodeIndex_none_iff]
      intro n hn he
      exact hmem (he ▸ List.mem_map_of_mem Node.id hn)
    unfold remove_node
    rw [hnone]

/-- C7 witness: the cascade theorem applied at concrete graphs. -/
theorem remove_node_cascade_witness :
    remove_node (Plugin.mk [Node.mk (lit "a") (lit "A") defaultType] [] 0) (lit "a") =
      (Plugin.mk [] [] 0, lit "Removed node \x27a\x27 and 0 connected edge(s).") ∧
    remove_node (Plugin.mk [] [] 0) (lit "x") =
      (Plugin.mk [] [] 0, lit "Node \x27x\x27 not found.") := by
  constructor
  · have h := remove_node_cascade.1 (Plugin.mk [Node.mk (lit "a") (lit "A") defaultType] [] 0)
      (lit "a") (by decide) (by decide)
    rw [h]
    decide
  · have h := remove_node_cascade.2.2 (Plugin.mk [] [] 0) (lit "x") (by decide)
    rw [h]
    decide

/-- C10: the four id-addressed toolkit operations preserve pairwise
distinctness of node ids: `add_node` refuses a duplicate id, `add_edge`
auto-creates an endpoint only when its id is absent, and removals never
introduce ids; `replace_flow` installs its payload with no uniqueness
check, and can install two nodes with the same id. -/
theorem toolkit_id_distinctness :
    (∀ (st : Plugin) (i l t : Str), (st.nodes.map Node.id).Nodup →
      (((add_node st i l t).1.nodes.map Node.id).Nodup))
    ∧ (∀ (st : Plugin) (i : Str), (st.nodes.map Node.id).Nodup →
      (((remove_node st i).1.nodes.map Node.id).Nodup))
    ∧ (∀ (st : Plugin) (s t l : Str), (st.nodes.map Node.id).Nodup →
      (((add_edge st s t l).1.nodes.map Node.id).Nodup))
    ∧ (∀ (st : Plugin) (s t : Str), (st.nodes.map Node.id).Nodup →
      (((remove_edge st s t).1.nodes.map Node.id).Nodup))
    ∧ (∀ (st : Plugin) (i l t : Str), i ∈ st.nodes.map Node.id →
      (add_node st i l t).1 = st)
    ∧ (∀ (st : Plugin) (s t l : Str), s ∈ st.nodes.map Node.id →
      t ∈ st.nodes.map Node.id → ((add_edge st s t l).1).nodes = st.nodes)
    ∧ (∃ v ev msg, replace_flow
        (lit "[\x7b\"id\":\"a\",\"label\":\"A\"\x7d,\x7b\"id\":\"a\",\"label\":\"B\"\x7d]")
        (lit "[]") = .ok (v, ev, msg) ∧
      decodeNodes v = some [Node.mk (lit "a") (lit "A") defaultType,
        Node.mk (lit "a") (lit "B") defaultType] ∧
      ¬(([Node.mk (lit "a") (lit "A") defaultType,
          Node.mk (lit "a") (lit "B") defaultType].map Node.id).Nodup)) := by
  have happend : ∀ (nodes : List Node) (x : Str), (nodes.map Node.id).Nodup →
      (((if nodeIndex nodes x = none then nodes ++ [Node.mk x x defaultType]
       else nodes).map Node.id).Nodup) := by
    intro nodes x hnd
    by_cases h : nodeIndex nodes x = none
    · rw [if_pos h]
      rw [nodeIndex_none_iff] at h
      simp only [List.map_append, List.map_cons, List.map_nil]
      rw [List.nodup_append]
      refine ⟨hnd, by simp, ?_⟩
      intro a ha hb
      simp only [List.mem_cons, List.not_mem_nil, or_false] at hb
      obtain ⟨n, hn, hid⟩ := List.mem_map.mp ha
      exact h n hn (hid.trans hb)
    · rw [if_neg h]
      exact hnd
  refine ⟨?_, ?_, ?_, ?_, ?_, ?_, ?_⟩
  · intro st i l t hnd
    unfold add_node
    cases hidx : nodeIndex st.nodes i with
    | some k => exact hnd
    | none =>
      rw [nodeIndex_none_iff] at hidx
      simp only [List.map_append, List.map_cons, List.map_nil]
      rw [List.nodup_append]
      refine ⟨hnd, by simp, ?_⟩
      intro a ha hb
      simp only [List.mem_cons, List.not_mem_nil, or_false] at hb
      obtain ⟨n, hn, hid⟩ := List.mem_map.mp ha
      exact hidx n hn (hid.trans hb)
  · intro st i hnd
    unfold remove_node
    cases hidx : nodeIndex st.nodes i with
    | none => exact hnd
    | some k =>
      have hsub : List.Sublist (st.nodes.eraseIdx k) st.nodes := List.eraseIdx_sublist _ _
      exact ((hsub.map Node.id).nodup hnd)
  · intro st s t l hnd
    unfold add_edge
    exact happend _ t (happend _ s hnd)
  · intro st s t hnd
    unfold remove_edge
    by_cases h : (st.edges.filter
        (fun e => !(decide (e.source = s) && decide (e.target = t)))).length = st.edges.length
    · rw [if_pos h]
      exact hnd
    · rw [if_neg h]
      exact hnd
  · intro st i l t hmem
    obtain ⟨idx, hidx⟩ := nodeIndex_some_of_mem st.nodes i hmem
    unfold add_node
    rw [hidx]
  · intro st s t l hs ht
    obtain ⟨i1, h1⟩ := nodeIndex_some_of_mem st.nodes s hs
    obtain ⟨i2, h2⟩ := nodeIndex_some_of_mem st.nodes t ht
    unfold add_edge
    simp [h1, h2]
  · exact ⟨_, _, _, rfl, rfl, by decide⟩

/-- C10 witness: the preservation statements applied at concrete states. -/
theorem toolkit_id_distinctness_witness :
    (((add_node (Plugin.mk [Node.mk (lit "a") (lit "A") defaultType] [] 0)
      (lit "b") (lit "B") defaultType).1.nodes.map Node.id).Nodup) ∧
    (add_node (Plugin.mk [Node.mk (lit "a") (lit "A") defaultType] [] 0)
      (lit "a") (lit "Z") defaultType).1 =
      Plugin.mk [Node.mk (lit "a") (lit "A") defaultType] [] 0 := by
  constructor
  · exact toolkit_id_distinctness.1 _ _ _ _ (by decide)
  · exact toolkit_id_distinctness.2.2.2.2.1 _ _ _ _ (by decide)

/-- C8: parsing a flow block whose only content line is `[a] -> [b]`
auto-materialises the two default nodes `a` then `b` (labels equal to
ids) and one edge with derived id `e0-a-b`; in general, a line matching
the edge pattern inserts each previously-unseen endpoint as a default
node — source before target — before appending the edge. -/
theorem parse_auto_materializes :
    (parseFlow (lit "```flow\n[a] -> [b]\n```") =
      ([Node.mk (lit "a") (lit "a") defaultType, Node.mk (lit "b") (lit "b") defaultType],
       [Edge.mk (lit "e0-a-b") (lit "a") (lit "b") none]))
    ∧ (∀ (st : PState) (line src tgt : Str) (lbl : Option Str),
        matchEdge (pyStrip line) = some (src, tgt, lbl) →
        parseLine st line =
          (let st1 := insertUnseen (insertUnseen st src) tgt
           { st1 with
             edges := st1.edges ++
               [Edge.mk (edgeId st.edgeN src tgt) src tgt (lbl.map pyStrip)]
             edgeN := st.edgeN + 1 })) := by
  constructor
  · decide
  · intro st line src tgt lbl hm
    have hne : (pyStrip line).isEmpty = false := by
      cases hst : pyStrip line with
      | nil =>
        rw [hst] at hm
        simp [matchEdge] at hm
      | cons a t => rfl
    simp only [parseLine, hne, Bool.false_eq_true, if_false, hm]

/-- C8 witness: the edge-line rule applied at a concrete labelled edge
line surrounded by whitespace. -/
theorem parse_auto_materializes_witness :
    parseLine (PState.mk [] [] [] 0) (lit " [x] -> [y] : L ") =
      (let st1 := insertUnseen (insertUnseen (PState.mk [] [] [] 0) (lit "x")) (lit "y")
       { st1 with
         edges := st1.edges ++ [Edge.mk (edgeId 0 (lit "x") (lit "y")) (lit "x") (lit "y")
           ((some (lit "L")).map pyStrip)]
         edgeN := 0 + 1 }) := by
  exact parse_auto_materializes.2 (PState.mk [] [] [] 0) (lit " [x] -> [y] : L ")
    (lit "x") (lit "y") (some (lit "L")) (by decide)

/-- C1 counterexample: the round trip fails as literally stated. The
graph with the single node `(id "a", label "", type "default")` has
pairwise-distinct ids, yet its serialised line `[a] ` strips to `[a]`,
matches no pattern, and parsing returns no node at all. -/
theorem roundtrip_fails_on_empty_label :
    (([Node.mk (lit "a") [] defaultType].map Node.id).Nodup) ∧
    (parseFlow (buildFlowBlock [Node.mk (lit "a") [] defaultType] [])).1.map nodeTriple ≠
      [Node.mk (lit "a") [] defaultType].map nodeTriple := by
  constructor
  · decide
  · decide

/-- C1 (amended): for every well-formed graph — node ids nonempty over
`[a-z0-9-]` and pairwise distinct, node types among the four known ones,
labels nonempty, free of line breaks, backticks and `]`, and not
starting or ending with whitespace, every edge endpoint declared as a
node, and edge labels absent or equally clean — parsing the serialised
flow block reproduces exactly the nodes as (id, label, type) triples and
the edges as (source, target, label) triples; only the derived edge ids
may differ. -/
theorem roundtrip_wellformed (ns : List Node) (es : List Edge) (h : WFGraph ns es) :
    (parseFlow (buildFlowBlock ns es)).1.map nodeTriple = ns.map nodeTriple ∧
    (parseFlow (buildFlowBlock ns es)).2.map edgeTriple = es.map edgeTriple := by
  rw [parseFlow_build ns es h]
  exact ⟨rfl, reIndex_triples 0 es⟩

/-- C1 witness: the amended round trip at a concrete four-type graph
with a labelled and an unlabelled edge. -/
theorem roundtrip_wellformed_witness :
    WFGraph
      [Node.mk (lit "start") (lit "Begin") (lit "input"),
       Node.mk (lit "chk-1") (lit "OK?") (lit "selector"),
       Node.mk (lit "s2") (lit "Do it") (lit "default"),
       Node.mk (lit "end") (lit "Done") (lit "output")]
      [Edge.mk (lit "x") (lit "start") (lit "chk-1") none,
       Edge.mk (lit "y") (lit "chk-1") (lit "s2") (some (lit "Yes")),
       Edge.mk (lit "z") (lit "s2") (lit "end") none] ∧
    ((parseFlow (buildFlowBlock
      [Node.mk (lit "start") (lit "Begin") (lit "input"),
       Node.mk (lit "chk-1") (lit "OK?") (lit "selector"),
       Node.mk (lit "s2") (lit "Do it") (lit "default"),
       Node.mk (lit "end") (lit "Done") (lit "output")]
      [Edge.mk (lit "x") (lit "start") (lit "chk-1") none,
       Edge.mk (lit "y") (lit "chk-1") (lit "s2") (some (lit "Yes")),
       Edge.mk (lit "z") (lit "s2") (lit "end") none])).1.map nodeTriple =
      ([Node.mk (lit "start") (lit "Begin") (lit "input"),
       Node.mk (lit "chk-1") (lit "OK?") (lit "selector"),
       Node.mk (lit "s2") (lit "Do it") (lit "default"),
       Node.mk (lit "end") (lit "Done") (lit "output")].map nodeTriple) ∧
     (parseFlow (buildFlowBlock
      [Node.mk (lit "start") (lit "Begin") (lit "input"),
       Node.mk (lit "chk-1") (lit "OK?") (lit "selector"),
       Node.mk (lit "s2") (lit "Do it") (lit "default"),
       Node.mk (lit "end") (lit "Done") (lit "output")]
      [Edge.mk (lit "x") (lit "start") (lit "chk-1") none,
       Edge.mk (lit "y") (lit "chk-1") (lit "s2") (some (lit "Yes")),
       Edge.mk (lit "z") (lit "s2") (lit "end") none])).2.map edgeTriple =
      ([Edge.mk (lit "x") (lit "start") (lit "chk-1") none,
       Edge.mk (lit "y") (lit "chk-1") (lit "s2") (some (lit "Yes")),
       Edge.mk (lit "z") (lit "s2") (lit "end") none].map edgeTriple)) :=
  ⟨by decide, roundtrip_wellformed _ _ (by decide)⟩

/-- C2 counterexample: `replace_flow` is the exception — its two
`json.loads` calls are unguarded, so a payload that is not valid JSON
raises `json.JSONDecodeError` out of the tool instead of being reported
as a status string. -/
theorem replace_flow_decode_error :
    replace_flow (lit "not json") (lit "[]") = .error (lit "JSONDecodeError") := rfl

/-- C2 (amended): the four incremental operations always return a
status string — duplicate node, missing node and missing edge are
reported as strings, successes name what changed — and `replace_flow`
returns its status string only when both payloads decode as JSON (and
raises a decode error otherwise, per the counterexample). -/
theorem toolkit_reports_strings :
    (∀ (st : Plugin) (i l t : Str) (idx : Nat), nodeIndex st.nodes i = some idx →
        add_node st i l t = (st, lit "Node \x27" ++ i ++ lit "\x27 already exists.")) ∧
    (∀ (st : Plugin) (i l t : Str), nodeIndex st.nodes i = none →
        add_node st i l t =
          (Plugin.mk (st.nodes ++ [Node.mk i l t]) st.edges st.edgeCounter,
           lit "Added " ++ t ++ lit " node \x27" ++ i ++ lit "\x27 (" ++ l ++ lit ").")) ∧
    (∀ (st : Plugin) (i : Str), nodeIndex st.nodes i = none →
        remove_node st i = (st, lit "Node \x27" ++ i ++ lit "\x27 not found.")) ∧
    (∀ (st : Plugin) (s t : Str),
        (add_edge st s t []).2 = lit "Added edge " ++ s ++ lit " → " ++ t ++ lit ".") ∧
    (∀ (st : Plugin) (s t : Str),
        (st.edges.filter
          (fun e => !(decide (e.source = s) && decide (e.target = t)))).length =
          st.edges.length →
        remove_edge st s t = (st, lit "Edge " ++ s ++ lit " → " ++ t ++ lit " not found.")) ∧
    (∀ (nj ej : Str), jsonLoads nj = none →
        replace_flow nj ej = .error (lit "JSONDecodeError")) ∧
    (∀ (nj ej : Str) (nv ev : JVal) (a b : Nat),
        jsonLoads nj = some nv → jsonLoads ej = some ev →
        pyLen nv = .ok a → pyLen ev = .ok b →
        replace_flow nj ej = .ok (nv, ev,
          lit "Replaced flow: " ++ natToStr a ++ lit " nodes, "
            ++ natToStr b ++ lit " edges.")) := by
  refine ⟨?_, ?_, ?_, ?_, ?_, ?_, ?_⟩
  · intro st i l t idx h; simp [add_node, h]
  · intro st i l t h; simp [add_node, h]
  · intro st i h; simp [remove_node, h]
  · intro st s t; simp [add_edge]
  · intro st s t h; simp only [remove_edge, h, if_pos]
  · intro nj ej h; simp [replace_flow, h]
  · intro nj ej nv ev a b h1 h2 h3 h4; simp [replace_flow, h1, h2, h3, h4]

/-- C2 witness: the message shapes at concrete inputs — a fresh node is
added with its success message, a missing edge is reported as a string,
and a well-formed empty replacement succeeds with its count message. -/
theorem toolkit_reports_strings_witness :
    (add_node (Plugin.mk [] [] 0) (lit "a") (lit "Start") (lit "input") =
      (Plugin.mk [Node.mk (lit "a") (lit "Start") (lit "input")] [] 0,
       lit "Added " ++ lit "input" ++ lit " node \x27" ++ lit "a" ++ lit "\x27 ("
         ++ lit "Start" ++ lit ").")) ∧
    (remove_edge (Plugin.mk [] [] 0) (lit "a") (lit "b") =
      (Plugin.mk [] [] 0, lit "Edge " ++ lit "a" ++ lit " → " ++ lit "b"
        ++ lit " not found.")) ∧
    (replace_flow (lit "[]") (lit "[]") = .ok (.arr [], .arr [],
      lit "Replaced flow: " ++ natToStr 0 ++ lit " nodes, " ++ natToStr 0
        ++ lit " edges.")) :=
  ⟨toolkit_reports_strings.2.1 (Plugin.mk [] [] 0) (lit "a") (lit "Start") (lit "input") rfl,
   toolkit_reports_strings.2.2.2.2.1 (Plugin.mk [] [] 0) (lit "a") (lit "b") rfl,
   toolkit_reports_strings.2.2.2.2.2.2 (lit "[]") (lit "[]") (.arr []) (.arr []) 0 0
     rfl rfl rfl rfl⟩

/-- When the cleaned reply has no `\x7b...\x7d` span, `reconcile` takes
the fallback branch and its result is fully determined by the original
document and the plugin graph. -/
theorem reconcile_fallback (markdown raw : Str) (p : Plugin)
    (a : List Node) (b : List Edge)
    (h : extractJsonSpan (cleanReply raw) = none) :
    reconcile markdown raw p a b =
      .ok (Sugg.mk
        (.str (if flowSub (buildFlowBlock p.nodes p.edges) markdown = markdown ∧ p.nodes ≠ a
          then pyRstrip markdown ++ lit "\n\n" ++ buildFlowBlock p.nodes p.edges ++ ['\n']
          else flowSub (buildFlowBlock p.nodes p.edges) markdown))
        (.str defaultSummary)
        ((p.nodes.length : Int) - (a.length : Int))
        ((p.edges.length : Int) - (b.length : Int))
        (.arr ((fallbackChanged p.nodes a).map JVal.str))
        (.arr [])) := by
  simp only [reconcile, h]

/-- C3 counterexample: a reply whose cleaned form contains a
`\x7b...\x7d` span that is not valid JSON is fatal — the unguarded
`json.loads(json_match.group())` raises instead of falling back. -/
theorem reconcile_raises_on_bad_span :
    reconcile (lit "# doc") (lit "\x7boops\x7d") (Plugin.mk [] [] 0) [] [] =
      .error (lit "JSONDecodeError") := rfl

/-- A parseable span is no guarantee either: an object whose
`nodesDelta` is a list raises `TypeError` inside `int()` at the trusted
path, before any Suggestion is built. -/
theorem reconcile_typeerror_on_bad_delta :
    reconcile (lit "# d") (lit "\x7b\"nodesDelta\": []\x7d")
      (Plugin.mk [] [] 0) [] [] = .error (lit "TypeError") := rfl

/-- `Except` bind on a success, as produced by `do` notation. -/
theorem exc_bind_ok {α β : Type} (x : α) (f : α → Except Str β) :
    (Except.ok x : Except Str α) >>= f = f x := rfl

/-- `Except` bind on an error, as produced by `do` notation. -/
theorem exc_bind_err {α β : Type} (e : Str) (f : α → Except Str β) :
    (Except.error e : Except Str α) >>= f = Except.error e := rfl

/-- C3 (amended): reconciliation returns a Suggestion **exactly** when
the cleaned reply contains no `\x7b...\x7d` span at all (the fallback
path), or contains one that parses as a JSON object whose `nodesDelta`
and `edgesDelta` fields (default 0) both coerce to an integer. In every
other case the exception propagates and no Suggestion is produced: a
span that fails `json.loads` raises the decode error, a span parsing to
a non-object raises on the `.get` attribute access, and a parseable
object whose delta field is, say, a list raises inside `int()`. -/
theorem malformed_never_fatal (markdown raw : Str) (p : Plugin)
    (a : List Node) (b : List Edge) :
    (∃ s, reconcile markdown raw p a b = .ok s) ↔
      (extractJsonSpan (cleanReply raw) = none ∨
       ∃ (span : Str) (kvs : List (Str × JVal)) (nd ed : Int),
         extractJsonSpan (cleanReply raw) = some span ∧
         jsonLoads span = some (.obj kvs) ∧
         pyInt ((dictGet kvs (lit "nodesDelta")).getD (.int 0)) = .ok nd ∧
         pyInt ((dictGet kvs (lit "edgesDelta")).getD (.int 0)) = .ok ed) := by
  constructor
  · rintro ⟨s, hs⟩
    cases hsp : extractJsonSpan (cleanReply raw) with
    | none => exact .inl rfl
    | some span =>
      refine .inr ?_
      cases hjl : jsonLoads span with
      | none =>
        simp only [reconcile, hsp, hjl] at hs
        exact Except.noConfusion hs
      | some v =>
        cases v with
        | null =>
          simp only [reconcile, hsp, hjl] at hs
          exact Except.noConfusion hs
        | bool b2 =>
          simp only [reconcile, hsp, hjl] at hs
          exact Except.noConfusion hs
        | int n =>
          simp only [reconcile, hsp, hjl] at hs
          exact Except.noConfusion hs
        | str s2 =>
          simp only [reconcile, hsp, hjl] at hs
          exact Except.noConfusion hs
        | arr xs =>
          simp only [reconcile, hsp, hjl] at hs
          exact Except.noConfusion hs
        | obj kvs =>
          cases hnd : pyInt ((dictGet kvs (lit "nodesDelta")).getD (.int 0)) with
          | error e =>
            simp only [reconcile, hsp, hjl, hnd, exc_bind_err] at hs
            exact Except.noConfusion hs
          | ok nd =>
            cases hed : pyInt ((dictGet kvs (lit "edgesDelta")).getD (.int 0)) with
            | error e =>
              simp only [reconcile, hsp, hjl, hnd, hed, exc_bind_ok, exc_bind_err] at hs
              exact Except.noConfusion hs
            | ok ed => exact ⟨span, kvs, nd, ed, rfl, hjl, hnd, hed⟩
  · rintro (h | ⟨span, kvs, nd, ed, h1, h2, h3, h4⟩)
    · exact ⟨_, reconcile_fallback markdown raw p a b h⟩
    · refine ⟨Sugg.mk ((dictGet kvs (lit "markdown")).getD (.str markdown))
        ((dictGet kvs (lit "summary")).getD (.str defaultSummary)) nd ed
        ((dictGet kvs (lit "changedNodeIds")).getD (.arr []))
        ((dictGet kvs (lit "changedEdgeIds")).getD (.arr [])), ?_⟩
      simp only [reconcile, h1, h2, h3, h4]
      rfl

/-- C3 witness: both success modes at concrete inputs — a braceless
reply takes the fallback path, and a reply whose span is an object with
an integer `nodesDelta` takes the trusted path; both yield a
Suggestion. -/
theorem malformed_never_fatal_witness :
    (∃ s, reconcile (lit "# d") (lit "no json here")
      (Plugin.mk [Node.mk (lit "a") (lit "A") defaultType] [] 0) [] [] = .ok s) ∧
    (∃ s, reconcile (lit "# d") (lit "go \x7b\"nodesDelta\": 2\x7d")
      (Plugin.mk [] [] 0) [] [] = .ok s) :=
  ⟨(malformed_never_fatal (lit "# d") (lit "no json here")
      (Plugin.mk [Node.mk (lit "a") (lit "A") defaultType] [] 0) [] []).mpr
    (.inl (by decide)),
   (malformed_never_fatal (lit "# d") (lit "go \x7b\"nodesDelta\": 2\x7d")
      (Plugin.mk [] [] 0) [] []).mpr
    (.inr ⟨lit "\x7b\"nodesDelta\": 2\x7d", [(lit "nodesDelta", JVal.int 2)], 2, 0,
      rfl, rfl, rfl, rfl⟩)⟩

/-- C4: whenever the cleaned reply contains a `\x7b...\x7d` span that
parses as a JSON object (and the two delta fields coerce to integers),
the Suggestion takes `markdown` (default: the original document),
`summary` (default: the fixed Japanese "flow updated" message),
`nodesDelta` and `edgesDelta` (default 0, `int()`-coerced) and
`changedNodeIds` / `changedEdgeIds` (default empty lists) verbatim from
that object; the right-hand side mentions neither the plugin state nor
the original graph, so nothing is cross-checked against the Toolkit. -/
theorem trusted_json_verbatim (markdown raw : Str) (p : Plugin)
    (a : List Node) (b : List Edge) (span : Str) (kvs : List (Str × JVal)) (nd ed : Int)
    (h1 : extractJsonSpan (cleanReply raw) = some span)
    (h2 : jsonLoads span = some (.obj kvs))
    (h3 : pyInt ((dictGet kvs (lit "nodesDelta")).getD (.int 0)) = .ok nd)
    (h4 : pyInt ((dictGet kvs (lit "edgesDelta")).getD (.int 0)) = .ok ed) :
    reconcile markdown raw p a b =
      .ok (Sugg.mk ((dictGet kvs (lit "markdown")).getD (.str markdown))
        ((dictGet kvs (lit "summary")).getD (.str defaultSummary))
        nd ed
        ((dictGet kvs (lit "changedNodeIds")).getD (.arr []))
        ((dictGet kvs (lit "changedEdgeIds")).getD (.arr []))) := by
  simp only [reconcile, h1, h2, h3, h4]
  rfl

/-- C4 witness: a reply embedding `\x7b"markdown":"# M","nodesDelta":2\x7d`
in prose is trusted verbatim — `markdown` is taken from the object,
`summary`, `edgesDelta` and the changed-id lists fall back to their
defaults — even though the plugin graph is empty and unchanged. -/
theorem trusted_json_verbatim_witness :
    reconcile (lit "# d") (lit "Here: \x7b\"markdown\":\"# M\",\"nodesDelta\":2\x7d done")
      (Plugin.mk [] [] 0) [] [] =
      .ok (Sugg.mk (.str (lit "# M")) (.str defaultSummary) 2 0 (.arr []) (.arr [])) := by
  have h := trusted_json_verbatim (lit "# d")
    (lit "Here: \x7b\"markdown\":\"# M\",\"nodesDelta\":2\x7d done")
    (Plugin.mk [] [] 0) [] []
    (lit "\x7b\"markdown\":\"# M\",\"nodesDelta\":2\x7d")
    [(lit "markdown", .str (lit "# M")), (lit "nodesDelta", .int 2)] 2 0
    rfl rfl rfl rfl
  exact h

/-- C5 counterexample: `_FLOW_RE.sub` rewrites **every** flow block, not
only the first. With two blocks in the original document and a one-node
graph, the fallback markdown has the rebuilt block in both positions,
which differs from the claimed first-block-only rewrite. -/
theorem fallback_rewrites_every_block :
    Except.map Sugg.markdown (reconcile
      (lit "```flow\n[a] A\n```\nx\n```flow\n[b] B\n```") (lit "ok")
      (Plugin.mk [Node.mk (lit "c") (lit "C") defaultType] [] 0)
      [Node.mk (lit "a") (lit "A") defaultType,
       Node.mk (lit "b") (lit "B") defaultType] []) =
      .ok (.str (lit "```flow\n[c] C\n```\nx\n```flow\n[c] C\n```")) ∧
    lit "```flow\n[c] C\n```\nx\n```flow\n[c] C\n```" ≠
      lit "```flow\n[c] C\n```\nx\n```flow\n[b] B\n```" :=
  ⟨rfl, by decide⟩

/-- C5 (amended): in the fallback path the rebuilt block is substituted
for every flow block of the original document (the global
`_FLOW_RE.sub`, embedded as `flowSub`); only when that substitution
leaves the document unchanged **and** the node list differs from the
original is the rebuilt block appended after a blank line to the
right-stripped document. -/
theorem fallback_rewrite (markdown raw : Str) (p : Plugin)
    (a : List Node) (b : List Edge)
    (h : extractJsonSpan (cleanReply raw) = none) :
    Except.map Sugg.markdown (reconcile markdown raw p a b) =
      .ok (.str (if flowSub (buildFlowBlock p.nodes p.edges) markdown = markdown ∧ p.nodes ≠ a
        then pyRstrip markdown ++ lit "\n\n" ++ buildFlowBlock p.nodes p.edges ++ ['\n']
        else flowSub (buildFlowBlock p.nodes p.edges) markdown)) := by
  rw [reconcile_fallback markdown raw p a b h]
  rfl

/-- C5 witness: the substitute-vs-append rule at a blockless document
whose graph gained a node — the rebuilt block is appended after a blank
line. -/
theorem fallback_rewrite_witness :
    extractJsonSpan (cleanReply (lit "added it")) = none ∧
    Except.map Sugg.markdown (reconcile (lit "# No block here") (lit "added it")
      (Plugin.mk [Node.mk (lit "n") (lit "N") defaultType] [] 0) [] []) =
      .ok (.str (if flowSub
          (buildFlowBlock [Node.mk (lit "n") (lit "N") defaultType] [])
          (lit "# No block here") = lit "# No block here" ∧
          [Node.mk (lit "n") (lit "N") defaultType] ≠ ([] : List Node)
        then pyRstrip (lit "# No block here") ++ lit "\n\n"
          ++ buildFlowBlock [Node.mk (lit "n") (lit "N") defaultType] [] ++ ['\n']
        else flowSub (buildFlowBlock [Node.mk (lit "n") (lit "N") defaultType] [])
          (lit "# No block here"))) :=
  ⟨by decide, fallback_rewrite (lit "# No block here") (lit "added it")
    (Plugin.mk [Node.mk (lit "n") (lit "N") defaultType] [] 0) [] [] (by decide)⟩

/-- C6 counterexample: "no parseable JSON object is found" includes a
reply whose `\x7b...\x7d` span fails to parse, and there the fallback
deltas are never computed — reconciliation raises instead. The plugin
state is exactly the claimed AddNode/AddEdge scenario. -/
theorem fallback_deltas_not_reached :
    reconcile (lit "# T\n\n```flow\n[a] Foo\n```") (lit "xx \x7bnot json\x7d yy")
      ((add_edge ((add_node (Plugin.mk [Node.mk (lit "a") (lit "Foo") defaultType] [] 0)
          (lit "b") (lit "Bar") defaultType).1) (lit "a") (lit "b") []).1)
      [Node.mk (lit "a") (lit "Foo") defaultType] [] =
      .error (lit "JSONDecodeError") := rfl

/-- C6 (amended): when the cleaned reply contains no `\x7b...\x7d` span
at all, the Suggestion's deltas are the current-minus-original node and
edge counts, `changedNodeIds` is the ids present in the current graph
but absent from the original (in current order) and `changedEdgeIds` is
empty; in the claimed scenario — AddNode("b","Bar") then
AddEdge("a","b") on a document containing `[a] Foo` — this gives
nodesDelta 1, edgesDelta 1, changedNodeIds ["b"], changedEdgeIds []. -/
theorem fallback_deltas :
    (∀ (markdown raw : Str) (p : Plugin) (a : List Node) (b : List Edge),
        extractJsonSpan (cleanReply raw) = none →
        ∃ m, reconcile markdown raw p a b = .ok (Sugg.mk m (.str defaultSummary)
          ((p.nodes.length : Int) - (a.length : Int))
          ((p.edges.length : Int) - (b.length : Int))
          (.arr ((fallbackChanged p.nodes a).map JVal.str))
          (.arr []))) ∧
    (∃ m, reconcile (lit "# T\n\n```flow\n[a] Foo\n```") (lit "Done.")
        ((add_edge ((add_node (Plugin.mk [Node.mk (lit "a") (lit "Foo") defaultType] [] 0)
            (lit "b") (lit "Bar") defaultType).1) (lit "a") (lit "b") []).1)
        [Node.mk (lit "a") (lit "Foo") defaultType] [] =
      .ok (Sugg.mk m (.str defaultSummary) 1 1
        (.arr [JVal.str (lit "b")]) (.arr []))) := by
  constructor
  · intro markdown raw p a b h
    exact ⟨_, reconcile_fallback markdown raw p a b h⟩
  · exact ⟨.str (lit "# T\n\n```flow\n[a] Foo\n[b] Bar\n\n[a] -> [b]\n```"), rfl⟩

/-- C6 witness: the delta rule at a concrete state where the graph lost
a node — nodesDelta is −1 and no added ids are reported. -/
theorem fallback_deltas_witness :
    extractJsonSpan (cleanReply (lit "updated.")) = none ∧
    ∃ m, reconcile (lit "plain doc") (lit "updated.") (Plugin.mk [] [] 0)
        [Node.mk (lit "z") (lit "Z") defaultType] [] =
      .ok (Sugg.mk m (.str defaultSummary) (-1) 0 (.arr []) (.arr [])) :=
  ⟨by decide, fallback_deltas.1 (lit "plain doc") (lit "updated.") (Plugin.mk [] [] 0)
    [Node.mk (lit "z") (lit "Z") defaultType] [] (by decide)⟩

/-- A list never equals itself followed by a nonempty suffix. -/
theorem ne_self_append (s t : Str) (ht : t ≠ []) : s ≠ s ++ t := by
  intro h
  have h2 := congrArg List.length h
  rw [List.length_append] at h2
  have h3 : 0 < t.length := List.length_pos.mpr ht
  omega

/-- C9 counterexample: the code reads `context.get("systemPrompt")`, not
`templateSystemPrompt` — a context carrying only a non-empty
`templateSystemPrompt` produces the bare base prompt, which is not the
claimed base-plus-addendum composition. -/
theorem template_prompt_key_mismatch :
    combinedInstructions [(lit "templateSystemPrompt", lit "You are a deploy bot.")] =
      BASE_SYSTEM_PROMPT ∧
    BASE_SYSTEM_PROMPT ≠
      BASE_SYSTEM_PROMPT ++ lit "\n\n" ++ lit "## Template-Specific Role\n"
        ++ lit "(Template: custom)\n" ++ lit "You are a deploy bot." := by
  constructor
  · rfl
  · simp only [List.append_assoc]
    exact ne_self_append _ _ (by decide)

/-- C9 (amended): the addendum is driven by `context.get("systemPrompt",
"").strip()`: when that strips to empty the instructions are exactly the
base prompt, and when it is non-empty the instructions are the base
prompt, a blank line, the `## Template-Specific Role` heading with a
`(Template: ...)` line naming `templateId` (label `custom` when the id
is absent or empty — the code uses Python `or`, so an empty id also
falls back), and then the stripped prompt — the addendum after the base
rules. -/
theorem template_prompt_composition (ctx : List (Str × Str)) :
    ((pyStrip ((ctxGet ctx (lit "systemPrompt")).getD [])).isEmpty = true →
      combinedInstructions ctx = BASE_SYSTEM_PROMPT) ∧
    ((pyStrip ((ctxGet ctx (lit "systemPrompt")).getD [])).isEmpty = false →
      combinedInstructions ctx =
        BASE_SYSTEM_PROMPT ++ lit "\n\n" ++ lit "## Template-Specific Role\n"
          ++ lit "(Template: "
          ++ (match ctxGet ctx (lit "templateId") with
              | some t => if t.isEmpty then lit "custom" else t
              | none => lit "custom")
          ++ lit ")\n" ++ pyStrip ((ctxGet ctx (lit "systemPrompt")).getD [])) := by
  constructor
  · intro h
    simp only [combinedInstructions, h, if_true]
  · intro h
    simp only [combinedInstructions, h, Bool.false_eq_true, if_false]

/-- C9 witness: both cases at concrete contexts — a context with no
`systemPrompt` key yields the base prompt alone; one carrying
`templateId` `tpl-1` and a padded `systemPrompt` yields the composed
instructions with the stripped addendum. -/
theorem template_prompt_composition_witness :
    combinedInstructions [(lit "markdown", lit "# d")] = BASE_SYSTEM_PROMPT ∧
    combinedInstructions
        [(lit "templateId", lit "tpl-1"), (lit "systemPrompt", lit " Be terse. ")] =
      BASE_SYSTEM_PROMPT ++ lit "\n\n" ++ lit "## Template-Specific Role\n"
        ++ lit "(Template: "
        ++ (match ctxGet [(lit "templateId", lit "tpl-1"),
              (lit "systemPrompt", lit " Be terse. ")] (lit "templateId") with
            | some t => if t.isEmpty then lit "custom" else t
            | none => lit "custom")
        ++ lit ")\n"
        ++ pyStrip ((ctxGet [(lit "templateId", lit "tpl-1"),
              (lit "systemPrompt", lit " Be terse. ")] (lit "systemPrompt")).getD []) :=
  ⟨(template_prompt_composition [(lit "markdown", lit "# d")]).1 (by decide),
   (template_prompt_composition [(lit "templateId", lit "tpl-1"),
      (lit "systemPrompt", lit " Be terse. ")]).2 (by decide)⟩
